import Mathlib

/-!
Shallow embedding of `protocol.py` (Bitnodes Bitcoin protocol codec and
connection driver) and proofs about it.

Byte strings are modelled as `List Nat` whose elements are below 256 by
construction on the encoding side.  Python `struct` packing/unpacking is
modelled explicitly with little-endian / big-endian byte lists, and the
ambient wall clock / RNG used by the Python code is modelled as an explicit
`Env` record threaded through the functions that consult it.
-/

set_option maxRecDepth 20000

namespace Bitnodes

/-- Decidable equality for `Except`, so that concrete decode results can be
checked by `decide`. -/
instance {ε α : Type} [DecidableEq ε] [DecidableEq α] : DecidableEq (Except ε α) :=
  fun x y =>
    match x, y with
    | .ok a, .ok b =>
        if h : a = b then isTrue (by rw [h])
        else isFalse (fun hh => h (by injection hh))
    | .error a, .error b =>
        if h : a = b then isTrue (by rw [h])
        else isFalse (fun hh => h (by injection hh))
    | .ok _, .error _ => isFalse (fun hh => Except.noConfusion hh)
    | .error _, .ok _ => isFalse (fun hh => Except.noConfusion hh)

/-- Little-endian encoding of `n` in `k` bytes (the low `8*k` bits of `n`),
as produced by `struct.pack` with formats `<H`, `<I`, `<Q`. -/
def leBytes : Nat → Nat → List Nat
  | 0, _ => []
  | k + 1, n => n % 256 :: leBytes k (n / 256)

/-- Little-endian decoding of a byte list, as in `struct.unpack("<I", ...)`. -/
def leNat : List Nat → Nat
  | [] => 0
  | b :: bs => b + 256 * leNat bs

/-- Big-endian decoding of a byte list, as in `struct.unpack(">H", ...)`. -/
def beNat (bs : List Nat) : Nat := bs.foldl (fun acc b => acc * 256 + b) 0

/-- Big-endian encoding of `n` in `k` bytes. -/
def beBytes (k n : Nat) : List Nat := (leBytes k n).reverse

theorem leBytes_length (k n : Nat) : (leBytes k n).length = k := by
  induction k generalizing n with
  | zero => rfl
  | succ k ih => simp [leBytes, ih]

theorem leNat_leBytes (k n : Nat) : leNat (leBytes k n) = n % 2 ^ (8 * k) := by
  induction k generalizing n with
  | zero => simp [leBytes, leNat, Nat.mod_one]
  | succ k ih =>
      simp only [leBytes, leNat, ih]
      have h1 : (2 : Nat) ^ (8 * (k + 1)) = 256 * 2 ^ (8 * k) := by ring
      rw [h1, Nat.mod_mul]

theorem leNat_leBytes_of_lt {k n : Nat} (h : n < 2 ^ (8 * k)) :
    leNat (leBytes k n) = n := by
  rw [leNat_leBytes]; exact Nat.mod_eq_of_lt h

theorem take_leBytes_append (k n : Nat) (rest : List Nat) :
    ((leBytes k n) ++ rest).take k = leBytes k n := by
  rw [List.take_append_of_le_length (by simp [leBytes_length])]
  simp [leBytes_length]

theorem drop_leBytes_append (k n : Nat) (rest : List Nat) :
    ((leBytes k n) ++ rest).drop k = rest := by
  rw [List.drop_append_of_le_length (by simp [leBytes_length])]
  simp [leBytes_length]

/-! ### SHA-256

A complete executable SHA-256, used for frame checksums
(`sha256(sha256(payload))[:4]`) and for tx/block hash derivation. -/

/-- Truncate to a 32-bit word. -/
def w32 (n : Nat) : Nat := n % 4294967296

/-- 32-bit rotate right. -/
def rotr32 (r x : Nat) : Nat := w32 ((x >>> r) ||| (x <<< (32 - r)))

def shaBigSigma0 (x : Nat) : Nat := rotr32 2 x ^^^ rotr32 13 x ^^^ rotr32 22 x

def shaBigSigma1 (x : Nat) : Nat := rotr32 6 x ^^^ rotr32 11 x ^^^ rotr32 25 x

def shaSmallSigma0 (x : Nat) : Nat := rotr32 7 x ^^^ rotr32 18 x ^^^ (x >>> 3)

def shaSmallSigma1 (x : Nat) : Nat := rotr32 17 x ^^^ rotr32 19 x ^^^ (x >>> 10)

/-- The 64 SHA-256 round constants. -/
def shaK : List Nat :=
  [1116352408, 1899447441, 3049323471, 3921009573, 961987163,
   1508970993, 2453635748, 2870763221, 3624381080, 310598401,
   607225278, 1426881987, 1925078388, 2162078206, 2614888103,
   3248222580, 3835390401, 4022224774, 264347078, 604807628,
   770255983, 1249150122, 1555081692, 1996064986, 2554220882,
   2821834349, 2952996808, 3210313671, 3336571891, 3584528711,
   113926993, 338241895, 666307205, 773529912, 1294757372,
   1396182291, 1695183700, 1986661051, 2177026350, 2456956037,
   2730485921, 2820302411, 3259730800, 3345764771, 3516065817,
   3600352804, 4094571909, 275423344, 430227734, 506948616,
   659060556, 883997877, 958139571, 1322822218, 1537002063,
   1747873779, 1955562222, 2024104815, 2227730452, 2361852424,
   2428436474, 2756734187, 3204031479, 3329325298]

/-- Initial SHA-256 hash state. -/
def shaH0 : List Nat :=
  [1779033703, 3144134277, 1013904242, 2773480762,
   1359893119, 2600822924, 528734635, 1541459225]

/-- One schedule extension step; `rws` holds the schedule so far, newest first. -/
def shaSchedStep (rws : List Nat) : Nat :=
  w32 (shaSmallSigma1 (rws.getD 1 0) + rws.getD 6 0 +
       shaSmallSigma0 (rws.getD 14 0) + rws.getD 15 0)

/-- Extend the (reversed) message schedule by `n` words. -/
def shaSched : Nat → List Nat → List Nat
  | 0, rws => rws
  | n + 1, rws => shaSched n (shaSchedStep rws :: rws)

/-- One compression round on state `[a,b,c,d,e,f,g,h]`. -/
def shaRound (st : List Nat) (k w : Nat) : List Nat :=
  match st with
  | [a, b, c, d, e, f, g, h] =>
      let ch := (e &&& f) ^^^ ((e ^^^ 0xFFFFFFFF) &&& g)
      let t1 := w32 (h + shaBigSigma1 e + ch + k + w)
      let maj := (a &&& b) ^^^ (a &&& c) ^^^ (b &&& c)
      let t2 := w32 (shaBigSigma0 a + maj)
      [w32 (t1 + t2), a, b, c, w32 (d + t1), e, f, g]
  | st => st

/-- Worker for `chunksOf`; the fuel (at least the list length) keeps the
recursion structural so that it reduces inside the kernel. -/
def chunksOfGo (k : Nat) : Nat → List α → List (List α)
  | 0, _ => []
  | _, [] => []
  | fuel + 1, a :: l => (a :: l).take k :: chunksOfGo k fuel ((a :: l).drop k)

/-- Split a list into chunks of `k` elements (`k > 0`). -/
def chunksOf (k : Nat) (l : List α) : List (List α) :=
  if k = 0 then [] else chunksOfGo k l.length l

/-- Compress one 64-byte block into the running hash state. -/
def shaCompress (h : List Nat) (block : List Nat) : List Nat :=
  let ws16 := (chunksOf 4 block).map beNat
  let ws := (shaSched 48 ws16.reverse).reverse
  let fin := (shaK.zip ws).foldl (fun st kw => shaRound st kw.1 kw.2) h
  List.zipWith (fun x y => w32 (x + y)) h fin

/-- SHA-256 padding: append `0x80`, zero bytes, and the 64-bit big-endian
bit length, reaching a multiple of 64 bytes. -/
def shaPad (msg : List Nat) : List Nat :=
  msg ++ [0x80] ++ List.replicate ((64 - (msg.length + 9) % 64) % 64) 0 ++
    beBytes 8 (8 * msg.length)

/-- SHA-256 digest (32 bytes) of a byte list; `hashlib.sha256(data).digest()`. -/
def sha256 (msg : List Nat) : List Nat :=
  ((chunksOf 64 (shaPad msg)).foldl shaCompress shaH0).flatMap (beBytes 4)

/-! ### Hex strings (`binascii.hexlify` / `binascii.unhexlify`) -/

/-- Lowercase hex digit for a value below 16. -/
def hexDigit (n : Nat) : Char :=
  if n < 10 then Char.ofNat (48 + n) else Char.ofNat (87 + n)

/-- `binascii.hexlify`: lowercase hex rendering of a byte list. -/
def hexlify (bs : List Nat) : String :=
  String.mk (bs.flatMap fun b => [hexDigit (b / 16 % 16), hexDigit (b % 16)])

/-- Value of a hex digit character (upper- or lowercase), else `none`. -/
def hexVal (c : Char) : Option Nat :=
  if 48 ≤ c.toNat ∧ c.toNat ≤ 57 then some (c.toNat - 48)
  else if 97 ≤ c.toNat ∧ c.toNat ≤ 102 then some (c.toNat - 87)
  else if 65 ≤ c.toNat ∧ c.toNat ≤ 70 then some (c.toNat - 55)
  else none

def unhexChars : List Char → Option (List Nat)
  | [] => some []
  | [_] => none
  | c1 :: c2 :: rest =>
      match hexVal c1, hexVal c2, unhexChars rest with
      | some h, some l, some r => some ((16 * h + l) :: r)
      | _, _, _ => none

/-- `binascii.unhexlify`: parse a hex string into bytes; `none` on bad input. -/
def unhexlify (s : String) : Option (List Nat) := unhexChars s.data

/-! ### Base32 (`base64.b32decode(s, True)` / `base64.b32encode`)

Only unpadded inputs whose length is a multiple of 8 characters are decoded
(`=` padding is rejected); the source only ever decodes 16-character onion
labels and encodes 10-byte strings, which need no padding. -/

/-- RFC 4648 base32 alphabet character for a value below 32. -/
def b32Char (n : Nat) : Char :=
  if n < 26 then Char.ofNat (65 + n) else Char.ofNat (50 + (n - 26))

/-- Value of an (uppercase) RFC 4648 base32 character, else `none`. -/
def b32Val (c : Char) : Option Nat :=
  if 65 ≤ c.toNat ∧ c.toNat ≤ 90 then some (c.toNat - 65)
  else if 50 ≤ c.toNat ∧ c.toNat ≤ 55 then some (c.toNat - 50 + 26)
  else none

/-- Encode one 5-byte group as 8 base32 characters. -/
def b32EncGroup (bs : List Nat) : List Char :=
  let n := beNat bs
  (List.range 8).map fun i => b32Char (n >>> (35 - 5 * i) &&& 31)

/-- `base64.b32encode` on inputs whose length is a multiple of 5 bytes. -/
def b32encode (bs : List Nat) : List Char :=
  (chunksOf 5 bs).flatMap b32EncGroup

/-- Decode one group of 8 base32 characters to 5 bytes. -/
def b32DecGroup (cs : List Char) : Option (List Nat) :=
  match cs.mapM b32Val with
  | some vs => some (beBytes 5 (vs.foldl (fun acc v => acc * 32 + v) 0))
  | none => none

/-- `base64.b32decode(s, casefold)` restricted to unpadded inputs. -/
def b32decode (cs : List Char) (casefold : Bool) : Option (List Nat) :=
  if cs.length % 8 ≠ 0 then none
  else
    let cs := if casefold then cs.map Char.toUpper else cs
    match (chunksOf 8 cs).mapM b32DecGroup with
    | some bs => some bs.flatten
    | none => none

/-! ### Decimal / hex rendering of numbers -/

def natDigitsAux (base : Nat) (digit : Nat → Char) : Nat → Nat → List Char
  | _, 0 => []
  | n, fuel + 1 =>
      if n < base then [digit n]
      else natDigitsAux base digit (n / base) fuel ++ [digit (n % base)]

/-- Decimal rendering of a natural number. -/
def decStr (n : Nat) : List Char := natDigitsAux 10 (fun d => Char.ofNat (48 + d)) n (n + 1)

/-- Lowercase hex rendering of a natural number, no leading zeros (`%x`). -/
def hexStr (n : Nat) : List Char := natDigitsAux 16 hexDigit n (n + 1)

/-! ### inet_pton / inet_ntop (glibc behaviour) -/

/-- `inet_ntop(AF_INET)`: dotted-quad rendering of 4 bytes. -/
def ntop4 (bs : List Nat) : List Char :=
  decStr (bs.getD 0 0) ++ '.' :: decStr (bs.getD 1 0) ++ '.' :: decStr (bs.getD 2 0) ++
    '.' :: decStr (bs.getD 3 0)

/-- Is `c` a decimal digit? -/
def isDigitCh (c : Char) : Bool := 48 ≤ c.toNat ∧ c.toNat ≤ 57

/-- Worker for `pton4`: `cur` is the octet being read (`none` before its first
digit), `acc` the completed octets. -/
def pton4Go : List Char → Option Nat → List Nat → Option (List Nat)
  | [], cur, acc =>
      match cur with
      | some v => if acc.length = 3 then some (acc ++ [v]) else none
      | none => none
  | c :: cs, cur, acc =>
      if isDigitCh c then
        let d := c.toNat - 48
        match cur with
        | none => pton4Go cs (some d) acc
        | some v =>
            if v = 0 then none
            else if v * 10 + d > 255 then none
            else pton4Go cs (some (v * 10 + d)) acc
      else if c = '.' then
        match cur with
        | some v => if acc.length + 1 ≥ 4 then none else pton4Go cs none (acc ++ [v])
        | none => none
      else none

/-- `inet_pton(AF_INET)`: strict dotted-quad parser (no leading zeros). -/
def pton4 (s : List Char) : Option (List Nat) := pton4Go s none []

/-- Finalisation of `pton6`: flush the last group, expand `::`. -/
def pton6Fin (tp : List Nat) (colonp : Option Nat) (sawX : Bool) (val : Nat) :
    Option (List Nat) :=
  match (if sawX then
           (if tp.length + 2 > 16 then none else some (tp ++ [val / 256, val % 256]))
         else some tp) with
  | none => none
  | some tp =>
      match colonp with
      | some cp =>
          if tp.length = 16 then none
          else some (tp.take cp ++ List.replicate (16 - tp.length) 0 ++ tp.drop cp)
      | none => if tp.length = 16 then some tp else none

/-- Worker for `pton6`, following glibc `inet_pton6`: `tp` accumulated bytes,
`colonp` the byte position of `::` if seen, `val` the current hex group,
`curtok` the suffix starting after the last `:`. -/
def pton6Go : List Char → List Nat → Option Nat → Bool → Nat → List Char →
    Option (List Nat)
  | [], tp, colonp, sawX, val, _ => pton6Fin tp colonp sawX val
  | c :: cs, tp, colonp, sawX, val, curtok =>
      match hexVal c with
      | some d =>
          if val * 16 + d > 0xFFFF then none
          else pton6Go cs tp colonp true (val * 16 + d) curtok
      | none =>
          if c = ':' then
            if ¬sawX then
              match colonp with
              | some _ => none
              | none => pton6Go cs tp (some tp.length) false 0 cs
            else if cs = [] then none
            else if tp.length + 2 > 16 then none
            else pton6Go cs (tp ++ [val / 256, val % 256]) colonp false 0 cs
          else if c = '.' ∧ tp.length + 4 ≤ 16 then
            match pton4 curtok with
            | some b4 => pton6Fin (tp ++ b4) colonp false 0
            | none => none
          else none

/-- `inet_pton(AF_INET6)` following glibc. -/
def pton6 (s : List Char) : Option (List Nat) :=
  match s with
  | ':' :: ':' :: _ => pton6Go (s.drop 1) [] none false 0 (s.drop 1)
  | ':' :: _ => none
  | _ => pton6Go s [] none false 0 s

/-- 16 address bytes as 8 big-endian 16-bit words. -/
def bytesToWords (bs : List Nat) : List Nat := (chunksOf 2 bs).map beNat

/-- Merge a finished zero run into the best-so-far (strictly longer wins,
so the leftmost longest run is kept). -/
def mergeRun (cur best : Option (Nat × Nat)) : Option (Nat × Nat) :=
  match cur, best with
  | none, b => b
  | some c, none => some c
  | some (cb, cl), some (bb, bl) => if cl > bl then some (cb, cl) else some (bb, bl)

/-- Scan for the best (longest, leftmost) run of zero words. -/
def runScan : List Nat → Nat → Option (Nat × Nat) → Option (Nat × Nat) →
    Option (Nat × Nat)
  | [], _, cur, best => mergeRun cur best
  | w :: ws, i, cur, best =>
      if w = 0 then
        match cur with
        | none => runScan ws (i + 1) (some (i, 1)) best
        | some (b, l) => runScan ws (i + 1) (some (b, l + 1)) best
      else runScan ws (i + 1) none (mergeRun cur best)

/-- Best zero run for `::` compression; runs of length 1 are not used. -/
def bestZeroRun (ws : List Nat) : Option (Nat × Nat) :=
  match runScan ws 0 none none with
  | some (b, l) => if l < 2 then none else some (b, l)
  | none => none

/-- Is index `i` inside the best run? -/
def inRun (best : Option (Nat × Nat)) (i : Nat) : Bool :=
  match best with
  | some (b, l) => b ≤ i ∧ i < b + l
  | none => false

/-- Rendering loop of glibc `inet_ntop6` over word indices `i, i+1, ...`;
`rem` is the number of indices left (`8 - i`). -/
def ntop6Go (bs ws : List Nat) (best : Option (Nat × Nat)) : Nat → Nat → List Char
  | _, 0 =>
      (match best with
       | some (b, l) => if b + l = 8 then [':'] else []
       | none => [])
  | i, rem + 1 =>
      if inRun best i then
        (if i = (best.map Prod.fst).getD 0 then [':'] else []) ++
          ntop6Go bs ws best (i + 1) rem
      else
        (if i ≠ 0 then [':'] else []) ++
          (if i = 6 ∧ (best.map Prod.fst).getD 9 = 0 ∧
              ((best.map Prod.snd).getD 0 = 6 ∨
               ((best.map Prod.snd).getD 0 = 5 ∧ ws.getD 5 0 = 0xFFFF)) then
            ntop4 (bs.drop 12)
          else hexStr (ws.getD i 0) ++ ntop6Go bs ws best (i + 1) rem)

/-- `inet_ntop(AF_INET6)` following glibc. -/
def ntop6 (bs : List Nat) : List Char :=
  let ws := bytesToWords bs
  ntop6Go bs ws (bestZeroRun ws) 0 8

/-- Python's substring test `small in big`. -/
def isSubstring (small big : List Char) : Bool :=
  (List.range (big.length + 1)).any fun i => (big.drop i).take small.length = small

/-! ### Protocol data model -/

/-- ASCII bytes of a string literal. -/
def ascii (s : String) : List Nat := s.data.map Char.toNat

/-- Mainnet magic bytes `F9 BE B4 D9`. -/
def MAGIC_NUMBER : List Nat := [0xF9, 0xBE, 0xB4, 0xD9]

/-- IPv6 marker bytes for `.onion` addresses, `FD 87 D8 7E EB 43`. -/
def onionMarker : List Nat := [0xFD, 0x87, 0xD8, 0x7E, 0xEB, 0x43]

/-- Error kinds raised by the codec and the connection driver.  The protocol
errors mirror the exception classes of the source; `noData` models a blocked
`socket.recv` with no chunk scheduled (the transport would block), and
`outOfFuel` is the artifact of bounding the read loop by fuel. -/
inductive PErr where
  | headerTooShort
  | invalidMagic
  | payloadTooShort
  | invalidChecksum
  | incompatibleClient
  | readError
  | structError
  | remoteClosed
  | noData
  | outOfFuel
deriving DecidableEq, Repr

/-- Ambient environment of a call: the wall clock (`int(time.time())` and
`int(time.time() * 1000)`) and the 64-bit RNG draw (`random.getrandbits(64)`). -/
structure Env where
  now : Nat
  nowMs : Nat
  rand64 : Nat
deriving DecidableEq, Repr

/-- Serializer configuration plus the mutable `required_len` field that is set
just before a `PayloadTooShortError` is raised. -/
structure Serializer where
  protocol_version : Nat
  to_services : Nat
  from_services : Nat
  user_agent : List Nat
  height : Nat
  relay : Bool
  required_len : Nat
deriving DecidableEq, Repr

/-- A `Serializer()` built from the module defaults. -/
def ser0 : Serializer :=
  { protocol_version := 70002, to_services := 1, from_services := 1,
    user_agent := ascii "/getaddr.bitnodes.io:0.1/", height := 336264,
    relay := false, required_len := 0 }

/-- A fixed environment for concrete runs. -/
def env0 : Env := { now := 0, nowMs := 0, rand64 := 0 }

/-- Keyword arguments of `serialize_msg`; a missing key is `none`. -/
structure Kwargs where
  to_addr : Option (String × Nat)
  from_addr : Option (String × Nat)
  nonce : Option Nat
  addr_list : Option (List (Nat × Nat × String × Nat))
  inventory : Option (List (Nat × String))
deriving DecidableEq, Repr

/-- Empty keyword arguments. -/
def kw0 : Kwargs := ⟨none, none, none, none, none⟩

/-- Decoded network address record. -/
structure NetworkAddress where
  timestamp : Option Nat
  services : Nat
  ipv4 : String
  ipv6 : String
  onion : String
  port : Nat
deriving DecidableEq, Repr

/-- Decoded inventory entry. -/
structure InvItem where
  type : Nat
  hash : String
deriving DecidableEq, Repr

structure TxIn where
  prev_out_hash : String
  prev_out_index : Nat
  script_length : Nat
  script : List Nat
  sequence : Nat
deriving DecidableEq, Repr

structure TxOut where
  value : Int
  script_length : Nat
  script : List Nat
deriving DecidableEq, Repr

structure TxMsg where
  version : Nat
  tx_in_count : Nat
  tx_in : List TxIn
  tx_out_count : Nat
  tx_out : List TxOut
  lock_time : Nat
  tx_hash : String
deriving DecidableEq, Repr

structure BlockMsg where
  block_hash : String
  version : Nat
  prev_block_hash : String
  merkle_root : String
  timestamp : Nat
  bits : Nat
  nonce : Nat
  tx_count : Nat
  tx : List TxMsg
deriving DecidableEq, Repr

structure VersionMsg where
  version : Int
  services : Nat
  timestamp : Int
  to_addr : NetworkAddress
  from_addr : NetworkAddress
  nonce : Nat
  user_agent : List Nat
  height : Int
  relay : Bool
deriving DecidableEq, Repr

/-- Typed payload fields added to the message dict by the decode dispatch. -/
inductive MsgPayload where
  | version (v : VersionMsg)
  | pingpong (nonce : Nat)
  | addr (count : Nat) (addr_list : List NetworkAddress)
  | inv (timestamp : Nat) (count : Nat) (inventory : List InvItem)
  | tx (t : TxMsg)
  | block (b : BlockMsg)
deriving DecidableEq, Repr

/-- A decoded message: the four header keys, plus the typed payload fields
when the command is one the dispatch recognises (`none` otherwise — the raw
payload bytes are not kept in the record). -/
structure Msg where
  magic_number : List Nat
  command : List Nat
  length : Nat
  checksum : List Nat
  payload : Option MsgPayload
deriving DecidableEq, Repr

/-! ### struct pack/unpack -/

/-- `struct.pack` of an unsigned `k`-byte little-endian value. -/
def packU (k n : Nat) : Option (List Nat) :=
  if n < 2 ^ (8 * k) then some (leBytes k n) else none

/-- `struct.pack` of a signed `k`-byte little-endian value. -/
def packI (k : Nat) (v : Int) : Option (List Nat) :=
  if -(2 ^ (8 * k - 1) : Int) ≤ v ∧ v < 2 ^ (8 * k - 1) then
    some (leBytes k (v % (2 ^ (8 * k) : Int)).toNat)
  else none

/-- `struct.pack(">H", port)`. -/
def packBE2 (n : Nat) : Option (List Nat) :=
  if n < 65536 then some (beBytes 2 n) else none

/-- Signed reading of `k` little-endian bytes. -/
def sdec (k : Nat) (bs : List Nat) : Int :=
  if leNat bs < 2 ^ (8 * k - 1) then (leNat bs : Int)
  else (leNat bs : Int) - 2 ^ (8 * k)

/-- Wrapped `unpack` of an unsigned LE value (`ReadError` on short data). -/
def unpackU (k : Nat) (d : List Nat) : Except PErr (Nat × List Nat) :=
  if k ≤ d.length then .ok (leNat (d.take k), d.drop k) else .error .readError

/-- Raw `struct.unpack` of an unsigned LE value (`struct.error` on short data). -/
def unpackUst (k : Nat) (d : List Nat) : Except PErr (Nat × List Nat) :=
  if k ≤ d.length then .ok (leNat (d.take k), d.drop k) else .error .structError

/-- Wrapped `unpack` of a signed LE value. -/
def unpackI (k : Nat) (d : List Nat) : Except PErr (Int × List Nat) :=
  if k ≤ d.length then .ok (sdec k (d.take k), d.drop k) else .error .readError

/-- Raw `struct.unpack` of a signed LE value. -/
def unpackIst (k : Nat) (d : List Nat) : Except PErr (Int × List Nat) :=
  if k ≤ d.length then .ok (sdec k (d.take k), d.drop k) else .error .structError

/-- Wrapped `unpack(">H", ...)`. -/
def unpackBE2 (d : List Nat) : Except PErr (Nat × List Nat) :=
  if 2 ≤ d.length then .ok (beNat (d.take 2), d.drop 2) else .error .readError

/-! ### Serializer: primitive codec -/

/-- `Serializer.serialize_int` (Bitcoin VarInt encoder); `none` models a
`struct.error` for values not below `2^64`. -/
def serialize_int (n : Nat) : Option (List Nat) :=
  if n < 0xFD then some [n]
  else if n ≤ 0xFFFF then some (0xFD :: leBytes 2 n)
  else if n ≤ 0xFFFFFFFF then some (0xFE :: leBytes 4 n)
  else if n < 2 ^ 64 then some (0xFF :: leBytes 8 n)
  else none

/-- `Serializer.deserialize_int` (Bitcoin VarInt decoder). -/
def deserialize_int (d : List Nat) : Except PErr (Nat × List Nat) :=
  match unpackU 1 d with
  | .error e => .error e
  | .ok (tag, d) =>
      if tag = 0xFD then unpackU 2 d
      else if tag = 0xFE then unpackU 4 d
      else if tag = 0xFF then unpackU 8 d
      else .ok (tag, d)

/-- `Serializer.serialize_string` (VarStr encoder). -/
def serialize_string (s : List Nat) : Option (List Nat) :=
  if s.length < 0xFD then some (s.length :: s)
  else if s.length ≤ 0xFFFF then some (0xFD :: (leBytes 2 s.length ++ s))
  else if s.length ≤ 0xFFFFFFFF then some (0xFE :: (leBytes 4 s.length ++ s))
  else if s.length < 2 ^ 64 then some (0xFF :: (leBytes 8 s.length ++ s))
  else none

/-- `Serializer.deserialize_string` (VarStr decoder; a short read just
returns the available bytes, as `StringIO.read` does). -/
def deserialize_string (d : List Nat) : Except PErr (List Nat × List Nat) :=
  match deserialize_int d with
  | .error e => .error e
  | .ok (len, d) => .ok (d.take len, d.drop len)

/-- Does the Python string end with `.onion`? -/
def endsWithOnion (ip : String) : Bool :=
  (ip.data.reverse.take 6) = ".onion".data.reverse

/-- `Serializer.serialize_network_address`.  A 4-tuple argument (with a
timestamp) is modelled by `timestamp = some t`, a 3-tuple by `none`. -/
def serialize_network_address (timestamp : Option Nat) (services : Nat)
    (ip : String) (port : Nat) : Option (List Nat) := do
  let tsPart ← match timestamp with
    | some t => packU 4 t
    | none => some []
  let svc ← packU 8 services
  let ipPart ←
    if endsWithOnion ip then
      (b32decode (ip.data.take (ip.data.length - 6)) true).map (onionMarker ++ ·)
    else if ip.data.contains '.' then
      (pton4 ip.data).map (List.replicate 10 0 ++ [0xFF, 0xFF] ++ ·)
    else
      pton6 ip.data
  let portPart ← packBE2 port
  some (tsPart ++ svc ++ ipPart ++ portPart)

/-- The optional leading timestamp of a network address record. -/
def readAddrTimestamp (has_timestamp : Bool) (d : List Nat) :
    Except PErr (Option Nat × List Nat) :=
  if has_timestamp then
    match unpackU 4 d with
    | .error e => .error e
    | .ok (t, d) => .ok (some t, d)
  else .ok (none, d)

/-- `Serializer.deserialize_network_address`. -/
def deserialize_network_address (d : List Nat) (has_timestamp : Bool) :
    Except PErr (NetworkAddress × List Nat) :=
  match readAddrTimestamp has_timestamp d with
  | .error e => .error e
  | .ok (timestamp, d) =>
      match unpackU 8 d with
      | .error e => .error e
      | .ok (services, d) =>
          let i6 := d.take 12
          let d := d.drop 12
          let i4 := d.take 4
          let d := d.drop 4
          match unpackBE2 d with
          | .error e => .error e
          | .ok (port, d) =>
              let ip16 := i6 ++ i4
              if ip16.take 6 = onionMarker then
                .ok ({ timestamp, services,
                       ipv4 := "", ipv6 := "",
                       onion := String.mk ((b32encode (ip16.drop 6)).map Char.toLower) ++
                         ".onion",
                       port }, d)
              else
                let v6 := ntop6 ip16
                let v4 := ntop4 i4
                if isSubstring v4 v6 then
                  .ok ({ timestamp, services, ipv4 := String.mk v4, ipv6 := "",
                         onion := "", port }, d)
                else
                  .ok ({ timestamp, services, ipv4 := "", ipv6 := String.mk v6,
                         onion := "", port }, d)

/-- `Serializer.serialize_inventory`. -/
def serialize_inventory (item : Nat × String) : Option (List Nat) := do
  let t ← packU 4 item.1
  let h ← unhexlify item.2
  some (t ++ h.reverse)

/-- `Serializer.deserialize_inventory` (the 32-byte hash is read without a
length check, reversed and hex-rendered). -/
def deserialize_inventory (d : List Nat) : Except PErr (InvItem × List Nat) :=
  match unpackUst 4 d with
  | .error e => .error e
  | .ok (t, d) => .ok ({ type := t, hash := hexlify (d.take 32).reverse }, d.drop 32)

/-! ### Serializer: tx / block payloads -/

/-- `Serializer.serialize_tx_in`. -/
def serialize_tx_in (ti : TxIn) : Option (List Nat) := do
  let h ← unhexlify ti.prev_out_hash
  let idx ← packU 4 ti.prev_out_index
  let sl ← serialize_int ti.script_length
  let sq ← packU 4 ti.sequence
  some (h.reverse ++ idx ++ sl ++ ti.script ++ sq)

/-- `Serializer.deserialize_tx_in`. -/
def deserialize_tx_in (d : List Nat) : Except PErr (TxIn × List Nat) :=
  let h := (d.take 32).reverse
  let d := d.drop 32
  match unpackUst 4 d with
  | .error e => .error e
  | .ok (idx, d) =>
      match deserialize_int d with
      | .error e => .error e
      | .ok (sl, d) =>
          let script := d.take sl
          let d := d.drop sl
          match unpackUst 4 d with
          | .error e => .error e
          | .ok (sq, d) =>
              .ok ({ prev_out_hash := hexlify h, prev_out_index := idx,
                     script_length := sl, script := script, sequence := sq }, d)

/-- `Serializer.serialize_tx_out`. -/
def serialize_tx_out (to_ : TxOut) : Option (List Nat) := do
  let v ← packI 8 to_.value
  let sl ← serialize_int to_.script_length
  some (v ++ sl ++ to_.script)

/-- `Serializer.deserialize_tx_out`. -/
def deserialize_tx_out (d : List Nat) : Except PErr (TxOut × List Nat) :=
  match unpackIst 8 d with
  | .error e => .error e
  | .ok (v, d) =>
      match deserialize_int d with
      | .error e => .error e
      | .ok (sl, d) =>
          .ok ({ value := v, script_length := sl, script := d.take sl }, d.drop sl)

/-- Serialize a list with an element serializer, failing if any element fails. -/
def serList (f : α → Option (List Nat)) : List α → Option (List Nat)
  | [] => some []
  | a :: l => do
      let b ← f a
      let r ← serList f l
      some (b ++ r)

/-- Read `n` records with an element deserializer. -/
def desList (f : List Nat → Except PErr (α × List Nat)) :
    Nat → List Nat → Except PErr (List α × List Nat)
  | 0, d => .ok ([], d)
  | n + 1, d =>
      match f d with
      | .error e => .error e
      | .ok (a, d) =>
          match desList f n d with
          | .error e => .error e
          | .ok (l, d) => .ok (a :: l, d)

/-- `Serializer.serialize_tx_payload` (ignores the `tx_hash` field, which the
Python dict does not yet hold at serialization time). -/
def serialize_tx_payload (t : TxMsg) : Option (List Nat) := do
  let v ← packU 4 t.version
  let tic ← serialize_int t.tx_in_count
  let tis ← serList serialize_tx_in t.tx_in
  let toc ← serialize_int t.tx_out_count
  let tos ← serList serialize_tx_out t.tx_out
  let lt ← packU 4 t.lock_time
  some (v ++ tic ++ tis ++ toc ++ tos ++ lt)

/-- `Serializer.deserialize_tx_payload`: decode, then compute `tx_hash` as the
hex of the byte-reversed double SHA-256 of the re-serialized record. -/
def deserialize_tx_payload (d : List Nat) : Except PErr (TxMsg × List Nat) :=
  match unpackUst 4 d with
  | .error e => .error e
  | .ok (v, d) =>
      match deserialize_int d with
      | .error e => .error e
      | .ok (tic, d) =>
          match desList deserialize_tx_in tic d with
          | .error e => .error e
          | .ok (tis, d) =>
              match deserialize_int d with
              | .error e => .error e
              | .ok (toc, d) =>
                  match desList deserialize_tx_out toc d with
                  | .error e => .error e
                  | .ok (tos, d) =>
                      match unpackUst 4 d with
                      | .error e => .error e
                      | .ok (lt, d) =>
                          let rec0 : TxMsg :=
                            { version := v, tx_in_count := tic, tx_in := tis,
                              tx_out_count := toc, tx_out := tos,
                              lock_time := lt, tx_hash := "" }
                          let payload := (serialize_tx_payload rec0).getD []
                          .ok ({ rec0 with
                                 tx_hash := hexlify (sha256 (sha256 payload)).reverse },
                               d)

/-- `Serializer.deserialize_block_payload`: `block_hash` is the double SHA-256
of exactly the first 80 bytes, computed before any field is read. -/
def deserialize_block_payload (d : List Nat) : Except PErr (BlockMsg × List Nat) :=
  let bh := hexlify (sha256 (sha256 (d.take 80))).reverse
  match unpackUst 4 d with
  | .error e => .error e
  | .ok (v, d) =>
      let pbh := hexlify (d.take 32).reverse
      let d := d.drop 32
      let mr := hexlify (d.take 32).reverse
      let d := d.drop 32
      match unpackUst 4 d with
      | .error e => .error e
      | .ok (ts, d) =>
          match unpackUst 4 d with
          | .error e => .error e
          | .ok (bits, d) =>
              match unpackUst 4 d with
              | .error e => .error e
              | .ok (nonce, d) =>
                  match deserialize_int d with
                  | .error e => .error e
                  | .ok (tc, d) =>
                      match desList deserialize_tx_payload tc d with
                      | .error e => .error e
                      | .ok (txs, d) =>
                          .ok ({ block_hash := bh, version := v,
                                 prev_block_hash := pbh, merkle_root := mr,
                                 timestamp := ts, bits := bits, nonce := nonce,
                                 tx_count := tc, tx := txs }, d)

/-! ### Serializer: ping / addr / inv / version payloads -/

/-- `Serializer.serialize_ping_payload`. -/
def serialize_ping_payload (nonce : Nat) : Option (List Nat) := packU 8 nonce

/-- `Serializer.deserialize_ping_payload`. -/
def deserialize_ping_payload (d : List Nat) : Except PErr (Nat × List Nat) :=
  unpackU 8 d

/-- `Serializer.serialize_addr_payload`. -/
def serialize_addr_payload (addr_list : List (Nat × Nat × String × Nat)) :
    Option (List Nat) := do
  let cnt ← serialize_int addr_list.length
  let entries ← serList
    (fun a => serialize_network_address (some a.1) a.2.1 a.2.2.1 a.2.2.2) addr_list
  some (cnt ++ entries)

/-- `Serializer.deserialize_addr_payload`. -/
def deserialize_addr_payload (d : List Nat) :
    Except PErr ((Nat × List NetworkAddress) × List Nat) :=
  match deserialize_int d with
  | .error e => .error e
  | .ok (count, d) =>
      match desList (fun d => deserialize_network_address d true) count d with
      | .error e => .error e
      | .ok (l, d) => .ok ((count, l), d)

/-- `Serializer.serialize_inv_payload`. -/
def serialize_inv_payload (inventory : List (Nat × String)) : Option (List Nat) := do
  let cnt ← serialize_int inventory.length
  let entries ← serList serialize_inventory inventory
  some (cnt ++ entries)

/-- `Serializer.deserialize_inv_payload`; the decode-time millisecond
timestamp comes from the ambient clock. -/
def deserialize_inv_payload (env : Env) (d : List Nat) :
    Except PErr ((Nat × Nat × List InvItem) × List Nat) :=
  match deserialize_int d with
  | .error e => .error e
  | .ok (count, d) =>
      match desList deserialize_inventory count d with
      | .error e => .error e
      | .ok (l, d) => .ok ((env.nowMs, count, l), d)

/-- `Serializer.serialize_version_payload`; the timestamp is the ambient
wall clock and the nonce the ambient 64-bit RNG draw. -/
def serialize_version_payload (env : Env) (s : Serializer)
    (to_addr from_addr : Nat × String × Nat) : Option (List Nat) := do
  let pv ← packI 4 s.protocol_version
  let svc ← packU 8 s.from_services
  let ts ← packI 8 env.now
  let ta ← serialize_network_address none to_addr.1 to_addr.2.1 to_addr.2.2
  let fa ← serialize_network_address none from_addr.1 from_addr.2.1 from_addr.2.2
  let ua ← serialize_string s.user_agent
  let h ← packI 4 s.height
  some (pv ++ svc ++ ts ++ ta ++ fa ++ leBytes 8 env.rand64 ++ ua ++ h ++
        [if s.relay then 1 else 0])

/-- `Serializer.deserialize_version_payload`. -/
def deserialize_version_payload (d : List Nat) :
    Except PErr (VersionMsg × List Nat) :=
  match unpackIst 4 d with
  | .error e => .error e
  | .ok (v, d) =>
      if v < 70001 then .error .incompatibleClient
      else
        match unpackU 8 d with
        | .error e => .error e
        | .ok (services, d) =>
            match unpackI 8 d with
            | .error e => .error e
            | .ok (ts, d) =>
                match deserialize_network_address d false with
                | .error e => .error e
                | .ok (ta, d) =>
                    match deserialize_network_address d false with
                    | .error e => .error e
                    | .ok (fa, d) =>
                        match unpackU 8 d with
                        | .error e => .error e
                        | .ok (nonce, d) =>
                            match deserialize_string d with
                            | .error e => .error e
                            | .ok (ua, d) =>
                                match unpackI 4 d with
                                | .error e => .error e
                                | .ok (h, d) =>
                                    let relay :=
                                      match d.take 1 with
                                      | [b] => b ≠ 0
                                      | _ => false
                                    .ok ({ version := v, services, timestamp := ts,
                                           to_addr := ta, from_addr := fa, nonce,
                                           user_agent := ua, height := h, relay },
                                         d.drop 1)

/-! ### Serializer: message framing -/

/-- Payload produced by the command dispatch of `serialize_msg`; `none` models
a `KeyError` on a missing keyword argument or a `struct`/codec failure. -/
def payloadFor (env : Env) (s : Serializer) (command : List Nat) (kw : Kwargs) :
    Option (List Nat) :=
  if command = ascii "version" then do
    let ta ← kw.to_addr
    let fa ← kw.from_addr
    serialize_version_payload env s (s.to_services, ta.1, ta.2)
      (s.from_services, fa.1, fa.2)
  else if command = ascii "ping" ∨ command = ascii "pong" then do
    let n ← kw.nonce
    serialize_ping_payload n
  else if command = ascii "addr" then do
    let l ← kw.addr_list
    serialize_addr_payload l
  else if command = ascii "inv" ∨ command = ascii "getdata" then do
    let l ← kw.inventory
    serialize_inv_payload l
  else some []

/-- `Serializer.serialize_msg`: magic, command zero-padded to 12 bytes,
payload length as u32 LE, `sha256(sha256(payload))[:4]`, payload. -/
def serialize_msg (env : Env) (s : Serializer) (command : List Nat) (kw : Kwargs) :
    Option (List Nat) :=
  match payloadFor env s command kw with
  | none => none
  | some payload =>
      match packU 4 payload.length with
      | none => none
      | some lenB =>
          some (MAGIC_NUMBER ++ (command ++ List.replicate (12 - command.length) 0) ++
                lenB ++ (sha256 (sha256 payload)).take 4 ++ payload)

/-- Strip leading and trailing zero bytes (Python `str.strip("\x00")`). -/
def stripNulls (bs : List Nat) : List Nat :=
  ((bs.dropWhile (· = 0)).reverse.dropWhile (· = 0)).reverse

/-- Parsed header record. -/
structure Header where
  magic_number : List Nat
  command : List Nat
  length : Nat
  checksum : List Nat
deriving DecidableEq, Repr

/-- `Serializer.deserialize_header` (called on the first 24 bytes). -/
def deserialize_header (d : List Nat) : Except PErr Header :=
  let magic := d.take 4
  if magic ≠ MAGIC_NUMBER then .error .invalidMagic
  else
    match unpackUst 4 ((d.drop 16).take 4) with
    | .error e => .error e
    | .ok (len, _) =>
        .ok { magic_number := magic, command := stripNulls ((d.drop 4).take 12),
              length := len, checksum := (d.drop 20).take 4 }

/-- Header fields of a message record. -/
def msgOfHeader (h : Header) (p : Option MsgPayload) : Msg :=
  { magic_number := h.magic_number, command := h.command, length := h.length,
    checksum := h.checksum, payload := p }

/-- Payload dispatch of `deserialize_msg` on a recognised command. -/
def dispatchPayload (env : Env) (command : List Nat) (payload : List Nat) :
    Except PErr (Option MsgPayload) :=
  if command = ascii "version" then
    match deserialize_version_payload payload with
    | .error e => .error e
    | .ok (v, _) => .ok (some (.version v))
  else if command = ascii "ping" ∨ command = ascii "pong" then
    match deserialize_ping_payload payload with
    | .error e => .error e
    | .ok (n, _) => .ok (some (.pingpong n))
  else if command = ascii "addr" then
    match deserialize_addr_payload payload with
    | .error e => .error e
    | .ok ((c, l), _) => .ok (some (.addr c l))
  else if command = ascii "inv" then
    match deserialize_inv_payload env payload with
    | .error e => .error e
    | .ok ((ts, c, l), _) => .ok (some (.inv ts c l))
  else if command = ascii "tx" then
    match deserialize_tx_payload payload with
    | .error e => .error e
    | .ok (t, _) => .ok (some (.tx t))
  else if command = ascii "block" then
    match deserialize_block_payload payload with
    | .error e => .error e
    | .ok (b, _) => .ok (some (.block b))
  else .ok none

/-- `Serializer.deserialize_msg`.  Returns the decode result together with the
updated serializer state (`required_len` is set exactly when
`PayloadTooShortError` is raised). -/
def deserialize_msg (env : Env) (s : Serializer) (d : List Nat) :
    Except PErr (Msg × List Nat) × Serializer :=
  if d.length < 24 then (.error .headerTooShort, s)
  else
    match deserialize_header (d.take 24) with
    | .error e => (.error e, s)
    | .ok h =>
        if d.length - 24 < h.length then
          (.error .payloadTooShort, { s with required_len := 24 + h.length })
        else
          let payload := (d.drop 24).take h.length
          let rest := d.drop (24 + h.length)
          if (sha256 (sha256 payload)).take 4 ≠ h.checksum then
            (.error .invalidChecksum, s)
          else
            match dispatchPayload env h.command payload with
            | .error e => (.error e, s)
            | .ok p => (.ok (msgOfHeader h p, rest), s)

/-! ### Connection driver

The transport is modelled as a list of byte chunks: each `socket.recv` call
pops the next chunk (an empty chunk models the peer closing the connection).
Frames written with `send` are collected in order in a `sent` list. -/

/-- The accumulation loop of `Connection.recv` for `length > 0`: keep reading
whole chunks until at least `length` bytes have been accumulated. -/
def recvAcc (chunks : List (List Nat)) (need : Nat) :
    Except PErr (List Nat × List (List Nat)) :=
  if need = 0 then .ok ([], chunks)
  else
    match chunks with
    | [] => .error .noData
    | c :: cs =>
        if c = [] then .error .remoteClosed
        else
          match recvAcc cs (need - c.length) with
          | .ok (rest, cs') => .ok (c ++ rest, cs')
          | .error e => .error e

/-- `Connection.recv`. -/
def conn_recv (length : Nat) (chunks : List (List Nat)) :
    Except PErr (List Nat × List (List Nat)) :=
  if 0 < length then recvAcc chunks length
  else
    match chunks with
    | [] => .error .noData
    | c :: cs => if c = [] then .error .remoteClosed else .ok (c, cs)

/-- The nonce of a decoded ping message (`msg['nonce']`; a decoded `ping`
always carries one). -/
def msgNonce (m : Msg) : Nat :=
  match m.payload with
  | some (.pingpong n) => n
  | _ => 0

/-- The pong frame sent by `Connection.pong(nonce)`. -/
def pong_frame (env : Env) (s : Serializer) (nonce : Nat) : List Nat :=
  (serialize_msg env s (ascii "pong") { kw0 with nonce := some nonce }).getD []

/-- The parse loop of `Connection.get_messages`: repeatedly decode one message
from `data`, recovering once per message from `PayloadTooShortError` by
pulling `required_len - len(data)` more bytes, answering each decoded `ping`
with a `pong`, until the buffer is empty.  `fuel` bounds the number of
iterations (a model artifact; each returned `outOfFuel` is distinct from any
behaviour of the source). -/
def getMessagesLoop (env : Env) : Nat → Serializer → List Nat →
    List (List Nat) → List (List Nat) → List Msg →
    Except PErr (List Msg × Serializer × List (List Nat) × List (List Nat))
  | 0, s, data, chunks, sent, acc =>
      if data = [] then .ok (acc, s, chunks, sent) else .error .outOfFuel
  | fuel + 1, s, data, chunks, sent, acc =>
      if data = [] then .ok (acc, s, chunks, sent)
      else
        match deserialize_msg env s data with
        | (.ok (msg, rest), s1) =>
            let sent' := if msg.command = ascii "ping" then
              sent ++ [pong_frame env s1 (msgNonce msg)] else sent
            getMessagesLoop env fuel s1 rest chunks sent' (acc ++ [msg])
        | (.error .payloadTooShort, s1) =>
            match conn_recv (s1.required_len - data.length) chunks with
            | .error e => .error e
            | .ok (more, chunks') =>
                match deserialize_msg env s1 (data ++ more) with
                | (.ok (msg, rest), s2) =>
                    let sent' := if msg.command = ascii "ping" then
                      sent ++ [pong_frame env s2 (msgNonce msg)] else sent
                    getMessagesLoop env fuel s2 rest chunks' sent' (acc ++ [msg])
                | (.error e, _) => .error e
        | (.error e, _) => .error e

/-- `Connection.get_messages(length, commands)`: read, drain the buffer, then
filter the returned list by the command allow-list (an empty `commands` list
models `commands=None`). -/
def get_messages (env : Env) (fuel : Nat) (s : Serializer) (length : Nat)
    (commands : List (List Nat)) (chunks sent : List (List Nat)) :
    Except PErr (List Msg × Serializer × List (List Nat) × List (List Nat)) :=
  match conn_recv length chunks with
  | .error e => .error e
  | .ok (data, chunks1) =>
      match getMessagesLoop env fuel s data chunks1 sent [] with
      | .error e => .error e
      | .ok (msgs, s', chunks2, sent') =>
          let out := if msgs = [] ∨ commands = [] then msgs
                     else msgs.filter (fun m => commands.contains m.command)
          .ok (out, s', chunks2, sent')

/-- The pong frames generated by a list of decoded messages, one per `ping`,
in order, each echoing that ping's nonce. -/
def pongsFor (l : List Msg) : List (List Nat) :=
  l.filterMap fun m =>
    if m.command = ascii "ping" then some (pong_frame env0 ser0 (msgNonce m))
    else none

/-! ## Helper lemmas -/

theorem payloadFor_default (env : Env) (s : Serializer) (cmd : List Nat)
    (kw : Kwargs) (h1 : cmd ≠ ascii "version")
    (h23 : ¬(cmd = ascii "ping" ∨ cmd = ascii "pong"))
    (h4 : cmd ≠ ascii "addr")
    (h56 : ¬(cmd = ascii "inv" ∨ cmd = ascii "getdata")) :
    payloadFor env s cmd kw = some [] := by
  unfold payloadFor
  repeat' split
  all_goals try rfl
  all_goals first
    | exact absurd (by assumption) h1
    | exact absurd (by assumption) h23
    | exact absurd (by assumption) h4
    | exact absurd (by assumption) h56

theorem take_append_len {α} (l r : List α) (n : Nat) (h : l.length = n) :
    (l ++ r).take n = l := by
  subst h
  exact List.take_left l r

theorem drop_append_len {α} (l r : List α) (n : Nat) (h : l.length = n) :
    (l ++ r).drop n = r := by
  subst h
  exact List.drop_left l r

theorem beBytes_length (k n : Nat) : (beBytes k n).length = k := by
  simp [beBytes, leBytes_length]

theorem shaRound_length (st : List Nat) (k w : Nat) :
    (shaRound st k w).length = st.length := by
  unfold shaRound
  split <;> rfl

theorem foldl_shaRound_length (l : List (Nat × Nat)) (st : List Nat) :
    (l.foldl (fun st kw => shaRound st kw.1 kw.2) st).length = st.length := by
  induction l generalizing st with
  | nil => rfl
  | cons a l ih => simp [List.foldl_cons, ih, shaRound_length]

theorem shaCompress_length (h block : List Nat) :
    (shaCompress h block).length = h.length := by
  unfold shaCompress
  simp [foldl_shaRound_length]

theorem foldl_shaCompress_length (blocks : List (List Nat)) (st : List Nat) :
    (blocks.foldl shaCompress st).length = st.length := by
  induction blocks generalizing st with
  | nil => rfl
  | cons b blocks ih => simp [List.foldl_cons, ih, shaCompress_length]

theorem flatMap_beBytes4_length (l : List Nat) :
    (l.flatMap (beBytes 4)).length = 4 * l.length := by
  induction l with
  | nil => rfl
  | cons a l ih => simp [List.flatMap_cons, ih, beBytes_length]; omega

/-- SHA-256 digests are 32 bytes. -/
theorem sha256_length (m : List Nat) : (sha256 m).length = 32 := by
  unfold sha256
  rw [flatMap_beBytes4_length, foldl_shaCompress_length]
  rfl

/-! ### Error classification of the payload deserializers

The only places that can raise `HeaderTooShortError`, `InvalidMagicNumberError`,
`PayloadTooShortError` or `InvalidPayloadChecksum` are the framing checks of
`deserialize_msg` / `deserialize_header`; every typed payload decoder fails
only with `ReadError`, `struct.error` or `IncompatibleClientError`. -/

/-- Errors a typed payload decoder can produce. -/
def Benign (e : PErr) : Prop :=
  e = .readError ∨ e = .structError ∨ e = .incompatibleClient

theorem unpackU_benign {k : Nat} {d : List Nat} {e : PErr}
    (h : unpackU k d = .error e) : Benign e := by
  unfold unpackU at h
  split at h
  · exact Except.noConfusion h
  · injection h with h; exact Or.inl h.symm

theorem unpackUst_benign {k : Nat} {d : List Nat} {e : PErr}
    (h : unpackUst k d = .error e) : Benign e := by
  unfold unpackUst at h
  split at h
  · exact Except.noConfusion h
  · injection h with h; exact Or.inr (Or.inl h.symm)

theorem unpackI_benign {k : Nat} {d : List Nat} {e : PErr}
    (h : unpackI k d = .error e) : Benign e := by
  unfold unpackI at h
  split at h
  · exact Except.noConfusion h
  · injection h with h; exact Or.inl h.symm

theorem unpackIst_benign {k : Nat} {d : List Nat} {e : PErr}
    (h : unpackIst k d = .error e) : Benign e := by
  unfold unpackIst at h
  split at h
  · exact Except.noConfusion h
  · injection h with h; exact Or.inr (Or.inl h.symm)

theorem unpackBE2_benign {d : List Nat} {e : PErr}
    (h : unpackBE2 d = .error e) : Benign e := by
  unfold unpackBE2 at h
  split at h
  · exact Except.noConfusion h
  · injection h with h; exact Or.inl h.symm

theorem deserialize_int_benign {d : List Nat} {e : PErr}
    (h : deserialize_int d = .error e) : Benign e := by
  unfold deserialize_int at h
  repeat' split at h
  all_goals try exact Except.noConfusion h
  all_goals try (injection h with h; subst h; exact unpackU_benign (by assumption))
  all_goals exact unpackU_benign h

theorem deserialize_string_benign {d : List Nat} {e : PErr}
    (h : deserialize_string d = .error e) : Benign e := by
  unfold deserialize_string at h
  split at h
  · injection h with h; subst h; exact deserialize_int_benign (by assumption)
  · exact Except.noConfusion h

theorem readAddrTimestamp_benign {b : Bool} {d : List Nat} {e : PErr}
    (h : readAddrTimestamp b d = .error e) : Benign e := by
  unfold readAddrTimestamp at h
  repeat' split at h
  all_goals try exact Except.noConfusion h
  all_goals injection h with h
  all_goals subst h
  all_goals exact unpackU_benign (by assumption)

theorem deserialize_network_address_benign {d : List Nat} {b : Bool} {e : PErr}
    (h : deserialize_network_address d b = .error e) : Benign e := by
  unfold deserialize_network_address at h
  try dsimp only at h
  repeat' split at h
  all_goals try exact Except.noConfusion h
  all_goals injection h with h
  all_goals subst h
  all_goals first
    | exact readAddrTimestamp_benign (by assumption)
    | exact unpackU_benign (by assumption)
    | exact unpackBE2_benign (by assumption)

theorem deserialize_ping_payload_benign {d : List Nat} {e : PErr}
    (h : deserialize_ping_payload d = .error e) : Benign e :=
  unpackU_benign h

theorem deserialize_inventory_benign {d : List Nat} {e : PErr}
    (h : deserialize_inventory d = .error e) : Benign e := by
  unfold deserialize_inventory at h
  split at h
  · injection h with h; subst h; exact unpackUst_benign (by assumption)
  · exact Except.noConfusion h

theorem desList_benign {α : Type} {f : List Nat → Except PErr (α × List Nat)}
    (hf : ∀ d e, f d = .error e → Benign e) :
    ∀ (n : Nat) (d : List Nat) (e : PErr), desList f n d = .error e → Benign e := by
  intro n
  induction n with
  | zero => intro d e h; exact Except.noConfusion h
  | succ n ih =>
      intro d e h
      unfold desList at h
      split at h
      · injection h with h; subst h; exact hf _ _ (by assumption)
      · split at h
        · injection h with h; subst h; exact ih _ _ (by assumption)
        · exact Except.noConfusion h

theorem deserialize_addr_payload_benign {d : List Nat} {e : PErr}
    (h : deserialize_addr_payload d = .error e) : Benign e := by
  unfold deserialize_addr_payload at h
  repeat' split at h
  all_goals try exact Except.noConfusion h
  all_goals injection h with h
  all_goals subst h
  all_goals first
    | exact deserialize_int_benign (by assumption)
    | exact desList_benign (fun _ _ hh => deserialize_network_address_benign hh) _ _ _
        (by assumption)

theorem deserialize_inv_payload_benign {env : Env} {d : List Nat} {e : PErr}
    (h : deserialize_inv_payload env d = .error e) : Benign e := by
  unfold deserialize_inv_payload at h
  repeat' split at h
  all_goals try exact Except.noConfusion h
  all_goals injection h with h
  all_goals subst h
  all_goals first
    | exact deserialize_int_benign (by assumption)
    | exact desList_benign (fun _ _ hh => deserialize_inventory_benign hh) _ _ _
        (by assumption)

theorem deserialize_tx_in_benign {d : List Nat} {e : PErr}
    (h : deserialize_tx_in d = .error e) : Benign e := by
  unfold deserialize_tx_in at h
  try dsimp only at h
  repeat' split at h
  all_goals try exact Except.noConfusion h
  all_goals injection h with h
  all_goals subst h
  all_goals first
    | exact unpackUst_benign (by assumption)
    | exact deserialize_int_benign (by assumption)

theorem deserialize_tx_out_benign {d : List Nat} {e : PErr}
    (h : deserialize_tx_out d = .error e) : Benign e := by
  unfold deserialize_tx_out at h
  try dsimp only at h
  repeat' split at h
  all_goals try exact Except.noConfusion h
  all_goals injection h with h
  all_goals subst h
  all_goals first
    | exact unpackIst_benign (by assumption)
    | exact deserialize_int_benign (by assumption)

theorem deserialize_tx_payload_benign {d : List Nat} {e : PErr}
    (h : deserialize_tx_payload d = .error e) : Benign e := by
  unfold deserialize_tx_payload at h
  try dsimp only at h
  repeat' split at h
  all_goals try exact Except.noConfusion h
  all_goals injection h with h
  all_goals subst h
  all_goals first
    | exact unpackUst_benign (by assumption)
    | exact deserialize_int_benign (by assumption)
    | exact desList_benign (fun _ _ hh => deserialize_tx_in_benign hh) _ _ _
        (by assumption)
    | exact desList_benign (fun _ _ hh => deserialize_tx_out_benign hh) _ _ _
        (by assumption)

theorem deserialize_block_payload_benign {d : List Nat} {e : PErr}
    (h : deserialize_block_payload d = .error e) : Benign e := by
  unfold deserialize_block_payload at h
  try dsimp only at h
  repeat' split at h
  all_goals try exact Except.noConfusion h
  all_goals injection h with h
  all_goals subst h
  all_goals first
    | exact unpackUst_benign (by assumption)
    | exact deserialize_int_benign (by assumption)
    | exact desList_benign (fun _ _ hh => deserialize_tx_payload_benign hh) _ _ _
        (by assumption)

theorem deserialize_version_payload_benign {d : List Nat} {e : PErr}
    (h : deserialize_version_payload d = .error e) : Benign e := by
  unfold deserialize_version_payload at h
  try dsimp only at h
  repeat' split at h
  all_goals try exact Except.noConfusion h
  all_goals injection h with h
  all_goals subst h
  all_goals first
    | exact Or.inr (Or.inr rfl)
    | exact unpackU_benign (by assumption)
    | exact unpackI_benign (by assumption)
    | exact unpackIst_benign (by assumption)
    | exact deserialize_string_benign (by assumption)
    | exact deserialize_network_address_benign (by assumption)

theorem dispatchPayload_benign {env : Env} {c p : List Nat} {e : PErr}
    (h : dispatchPayload env c p = .error e) : Benign e := by
  unfold dispatchPayload at h
  try dsimp only at h
  repeat' split at h
  all_goals try exact Except.noConfusion h
  all_goals injection h with h
  all_goals subst h
  all_goals first
    | exact deserialize_version_payload_benign (by assumption)
    | exact deserialize_ping_payload_benign (by assumption)
    | exact deserialize_addr_payload_benign (by assumption)
    | exact deserialize_inv_payload_benign (by assumption)
    | exact deserialize_tx_payload_benign (by assumption)
    | exact deserialize_block_payload_benign (by assumption)

/-! ### Shape of `deserialize_msg` -/

/-- The length field a buffer's header declares (u32 LE at offset 16). -/
def declaredLen (d : List Nat) : Nat := leNat ((d.drop 16).take 4)

/-- The checksum field of a buffer's header (4 bytes at offset 20). -/
def checksumOf (d : List Nat) : List Nat := (d.drop 20).take 4

/-- The command field of a buffer's header, stripped of zero bytes. -/
def cmdOf (d : List Nat) : List Nat := stripNulls ((d.drop 4).take 12)

/-- The payload a buffer carries (the declared number of bytes at offset 24). -/
def payloadOf (d : List Nat) : List Nat := (d.drop 24).take (declaredLen d)

theorem deserialize_header_of_magic {d : List Nat} (h24 : 24 ≤ d.length)
    (hm : d.take 4 = MAGIC_NUMBER) :
    deserialize_header (d.take 24) =
      .ok { magic_number := MAGIC_NUMBER, command := cmdOf d,
            length := declaredLen d, checksum := checksumOf d } := by
  have e1 : (d.take 24).take 4 = d.take 4 := by simp [List.take_take]
  have e2 : ((d.take 24).drop 4).take 12 = (d.drop 4).take 12 := by
    simp [List.drop_take, List.take_take]
  have e3 : ((d.take 24).drop 16).take 4 = (d.drop 16).take 4 := by
    simp [List.drop_take, List.take_take]
  have e4 : ((d.take 24).drop 20).take 4 = (d.drop 20).take 4 := by
    simp [List.drop_take, List.take_take]
  have hlen4 : ((d.drop 16).take 4).length = 4 := by
    simp only [List.length_take, List.length_drop]
    omega
  unfold deserialize_header
  rw [e1, hm, if_neg (by simp), e3]
  unfold unpackUst
  rw [if_pos (by rw [hlen4]), List.take_take]
  simp only [e2, e4]
  rfl

theorem deserialize_header_bad_magic {d : List Nat}
    (hm : d.take 4 ≠ MAGIC_NUMBER) :
    deserialize_header (d.take 24) = .error .invalidMagic := by
  have e1 : (d.take 24).take 4 = d.take 4 := by simp [List.take_take]
  unfold deserialize_header
  rw [e1, if_pos hm]

/-- Characterisation of `deserialize_msg` in terms of the buffer slices:
the checks run in order header-length, magic, payload-length (setting
`required_len`), checksum, and then the payload dispatch. -/
theorem deserialize_msg_spec (env : Env) (s : Serializer) (d : List Nat) :
    deserialize_msg env s d =
      if d.length < 24 then (.error .headerTooShort, s)
      else if d.take 4 ≠ MAGIC_NUMBER then (.error .invalidMagic, s)
      else if d.length - 24 < declaredLen d then
        (.error .payloadTooShort, { s with required_len := 24 + declaredLen d })
      else if (sha256 (sha256 (payloadOf d))).take 4 ≠ checksumOf d then
        (.error .invalidChecksum, s)
      else
        match dispatchPayload env (cmdOf d) (payloadOf d) with
        | .error e => (.error e, s)
        | .ok p =>
            (.ok ({ magic_number := MAGIC_NUMBER, command := cmdOf d,
                    length := declaredLen d, checksum := checksumOf d,
                    payload := p }, d.drop (24 + declaredLen d)), s) := by
  unfold deserialize_msg
  by_cases h24 : d.length < 24
  · rw [if_pos h24, if_pos h24]
  · rw [if_neg h24, if_neg h24]
    by_cases hm : d.take 4 = MAGIC_NUMBER
    · rw [deserialize_header_of_magic (by omega) hm, if_neg (by simp [hm])]
      rfl
    · rw [deserialize_header_bad_magic hm, if_pos hm]

/-- A benign payload error is none of the four framing error kinds. -/
theorem Benign.ne_framing {e : PErr} (hb : Benign e) :
    e ≠ .headerTooShort ∧ e ≠ .invalidMagic ∧ e ≠ .payloadTooShort ∧
      e ≠ .invalidChecksum := by
  rcases hb with h | h | h <;> subst h <;> exact ⟨by decide, by decide, by decide, by decide⟩

/-! ## C3: VarInt round-trips -/

/-- C3: for each n in {0, 0xFC, 0xFD, 0xFFFF, 0x10000, 0xFFFFFFFF,
0x100000000}, decoding the encoding of n yields n back with no leftover, and
the encodings have byte lengths 1, 1, 3, 3, 5, 5, 9 respectively. -/
theorem varint_roundtrip_c3 :
    (serialize_int 0 = some [0x00] ∧ deserialize_int [0x00] = .ok (0, []) ∧
      ([0x00] : List Nat).length = 1) ∧
    (serialize_int 0xFC = some [0xFC] ∧ deserialize_int [0xFC] = .ok (0xFC, []) ∧
      ([0xFC] : List Nat).length = 1) ∧
    (serialize_int 0xFD = some [0xFD, 0xFD, 0x00] ∧
      deserialize_int [0xFD, 0xFD, 0x00] = .ok (0xFD, []) ∧
      ([0xFD, 0xFD, 0x00] : List Nat).length = 3) ∧
    (serialize_int 0xFFFF = some [0xFD, 0xFF, 0xFF] ∧
      deserialize_int [0xFD, 0xFF, 0xFF] = .ok (0xFFFF, []) ∧
      ([0xFD, 0xFF, 0xFF] : List Nat).length = 3) ∧
    (serialize_int 0x10000 = some [0xFE, 0x00, 0x00, 0x01, 0x00] ∧
      deserialize_int [0xFE, 0x00, 0x00, 0x01, 0x00] = .ok (0x10000, []) ∧
      ([0xFE, 0x00, 0x00, 0x01, 0x00] : List Nat).length = 5) ∧
    (serialize_int 0xFFFFFFFF = some [0xFE, 0xFF, 0xFF, 0xFF, 0xFF] ∧
      deserialize_int [0xFE, 0xFF, 0xFF, 0xFF, 0xFF] = .ok (0xFFFFFFFF, []) ∧
      ([0xFE, 0xFF, 0xFF, 0xFF, 0xFF] : List Nat).length = 5) ∧
    (serialize_int 0x100000000 =
        some [0xFF, 0x00, 0x00, 0x00, 0x00, 0x01, 0x00, 0x00, 0x00] ∧
      deserialize_int [0xFF, 0x00, 0x00, 0x00, 0x00, 0x01, 0x00, 0x00, 0x00] =
        .ok (0x100000000, []) ∧
      ([0xFF, 0x00, 0x00, 0x00, 0x00, 0x01, 0x00, 0x00, 0x00] : List Nat).length = 9) := by
  decide

/-! ## C2: order and effects of the inbound framing checks -/

/-- C2 (amended): `deserialize_msg` fails with `HeaderTooShort` iff the buffer
has fewer than 24 bytes; otherwise with `InvalidMagicNumber` iff the first 4
bytes differ from `F9 BE B4 D9`; otherwise with `PayloadTooShort` iff the
buffer length minus 24 is less than the declared length, and exactly then
`required_len` is set to 24 plus the declared length; otherwise with
`InvalidPayloadChecksum` iff `sha256(sha256(payload))[:4]` differs from the
header checksum; the checks are applied in that order, and the other three
failure kinds (not `PayloadTooShort`, which sets `required_len`) leave
`required_len` unchanged. -/
theorem deserialize_msg_errors_c2 (env : Env) (s : Serializer) (d : List Nat) :
    ((deserialize_msg env s d).1 = .error .headerTooShort ↔ d.length < 24) ∧
    (24 ≤ d.length →
      ((deserialize_msg env s d).1 = .error .invalidMagic ↔
        d.take 4 ≠ MAGIC_NUMBER)) ∧
    (24 ≤ d.length → d.take 4 = MAGIC_NUMBER →
      (((deserialize_msg env s d).1 = .error .payloadTooShort ↔
          d.length - 24 < declaredLen d) ∧
        (d.length - 24 < declaredLen d →
          (deserialize_msg env s d).2.required_len = 24 + declaredLen d))) ∧
    (24 ≤ d.length → d.take 4 = MAGIC_NUMBER → declaredLen d ≤ d.length - 24 →
      ((deserialize_msg env s d).1 = .error .invalidChecksum ↔
        (sha256 (sha256 (payloadOf d))).take 4 ≠ checksumOf d)) ∧
    ((deserialize_msg env s d).1 = .error .headerTooShort ∨
        (deserialize_msg env s d).1 = .error .invalidMagic ∨
        (deserialize_msg env s d).1 = .error .invalidChecksum →
      (deserialize_msg env s d).2 = s) := by
  rw [deserialize_msg_spec]
  by_cases h24 : d.length < 24
  · simp [h24]
  · rw [if_neg h24]
    by_cases hm : d.take 4 = MAGIC_NUMBER
    · rw [if_neg (by simp [hm])]
      by_cases hshort : d.length - 24 < declaredLen d
      · simp [hshort, h24, hm]
      · rw [if_neg hshort]
        by_cases hck : (sha256 (sha256 (payloadOf d))).take 4 = checksumOf d
        · rw [if_neg (by simp [hck])]
          cases hdp : dispatchPayload env (cmdOf d) (payloadOf d) with
          | error e =>
              have hb := (dispatchPayload_benign hdp).ne_framing
              simp [h24, hm, hshort, hck, hb.1, hb.2.1, hb.2.2.1, hb.2.2.2]
          | ok p => simp [h24, hm, hshort, hck]
        · rw [if_pos (by simp [hck])]
          simp [h24, hm, hshort, hck]
    · rw [if_pos hm]
      simp [h24, hm]

/-- Counterexample for C2 as stated: a `PayloadTooShort` failure does change
`required_len` (here from 0 to 25), so the clause "the first three failure
kinds leave `required_len` unchanged" is false on the code. -/
theorem deserialize_msg_c2_counterexample :
    (deserialize_msg env0 ser0
        (MAGIC_NUMBER ++ List.replicate 12 0 ++ [1, 0, 0, 0] ++ [0, 0, 0, 0])).1 =
      .error .payloadTooShort ∧
    (deserialize_msg env0 ser0
        (MAGIC_NUMBER ++ List.replicate 12 0 ++ [1, 0, 0, 0] ++ [0, 0, 0, 0])).2.required_len
      = 25 ∧
    ser0.required_len = 0 := by
  decide

/-- Witness for C2 at a concrete 23-byte buffer (header too short) and at a
concrete complete buffer with a bad checksum. -/
theorem deserialize_msg_errors_c2_witness :
    ((deserialize_msg env0 ser0 (List.replicate 23 0)).1 = .error .headerTooShort ↔
      (List.replicate 23 0 : List Nat).length < 24) ∧
    ((deserialize_msg env0 ser0
        (MAGIC_NUMBER ++ List.replicate 12 0 ++ [0, 0, 0, 0] ++ [9, 9, 9, 9])).1 =
        .error .invalidChecksum ↔
      (sha256 (sha256 (payloadOf
          (MAGIC_NUMBER ++ List.replicate 12 0 ++ [0, 0, 0, 0] ++ [9, 9, 9, 9])))).take 4 ≠
        checksumOf (MAGIC_NUMBER ++ List.replicate 12 0 ++ [0, 0, 0, 0] ++ [9, 9, 9, 9])) :=
  ⟨(deserialize_msg_errors_c2 env0 ser0 (List.replicate 23 0)).1,
   (deserialize_msg_errors_c2 env0 ser0
      (MAGIC_NUMBER ++ List.replicate 12 0 ++ [0, 0, 0, 0] ++ [9, 9, 9, 9])).2.2.2.1
     (by decide) (by decide) (by decide)⟩

/-! ## C8: frames with unrecognised commands -/

theorem dispatchPayload_default (env : Env) (c p : List Nat)
    (h1 : c ≠ ascii "version") (h23 : ¬(c = ascii "ping" ∨ c = ascii "pong"))
    (h4 : c ≠ ascii "addr") (h5 : c ≠ ascii "inv") (h6 : c ≠ ascii "tx")
    (h7 : c ≠ ascii "block") :
    dispatchPayload env c p = .ok none := by
  unfold dispatchPayload
  repeat' split
  all_goals try rfl
  all_goals first
    | exact absurd (by assumption) h1
    | exact absurd (by assumption) h23
    | exact absurd (by assumption) h4
    | exact absurd (by assumption) h5
    | exact absurd (by assumption) h6
    | exact absurd (by assumption) h7

/-- C8 (amended): a frame with valid magic, complete payload and correct
checksum whose command is outside the recognised set decodes successfully to
a record holding only the header fields (the raw payload bytes are consumed
from the buffer but not kept in the record), together with the remaining
bytes of the buffer. -/
theorem deserialize_msg_unknown_c8 (env : Env) (s : Serializer)
    (cmdf : List Nat) (L : Nat) (p rest : List Nat)
    (hcmd : cmdf.length = 12) (hL : p.length = L) (hL32 : L < 2 ^ 32)
    (hout : stripNulls cmdf ∉ [ascii "version", ascii "verack", ascii "ping",
      ascii "pong", ascii "addr", ascii "getaddr", ascii "inv", ascii "getdata",
      ascii "tx", ascii "block"]) :
    deserialize_msg env s
        (MAGIC_NUMBER ++ cmdf ++ leBytes 4 L ++ (sha256 (sha256 p)).take 4 ++ p ++ rest) =
      (.ok ({ magic_number := MAGIC_NUMBER, command := stripNulls cmdf, length := L,
              checksum := (sha256 (sha256 p)).take 4, payload := none }, rest), s) := by
  set cks := (sha256 (sha256 p)).take 4 with hcksdef
  have hckslen : cks.length = 4 := by
    rw [hcksdef, List.length_take, sha256_length]
    omega
  set d := MAGIC_NUMBER ++ cmdf ++ leBytes 4 L ++ cks ++ p ++ rest with hd
  have hd' : d = MAGIC_NUMBER ++ (cmdf ++ (leBytes 4 L ++ (cks ++ (p ++ rest)))) := by
    simp [hd, List.append_assoc]
  have h4 : d.drop 4 = cmdf ++ (leBytes 4 L ++ (cks ++ (p ++ rest))) := by
    rw [hd']
    exact drop_append_len MAGIC_NUMBER _ 4 (by rfl)
  have h16 : d.drop 16 = leBytes 4 L ++ (cks ++ (p ++ rest)) := by
    have e : d.drop 16 = (d.drop 4).drop 12 := by rw [List.drop_drop]
    rw [e, h4, drop_append_len _ _ _ hcmd]
  have h20 : d.drop 20 = cks ++ (p ++ rest) := by
    have e : d.drop 20 = (d.drop 16).drop 4 := by rw [List.drop_drop]
    rw [e, h16, drop_leBytes_append]
  have h24 : d.drop 24 = p ++ rest := by
    have e : d.drop 24 = (d.drop 20).drop 4 := by rw [List.drop_drop]
    rw [e, h20, drop_append_len _ _ _ hckslen]
  have hdl : declaredLen d = L := by
    rw [declaredLen, h16, take_leBytes_append, leNat_leBytes_of_lt hL32]
  have hlen : d.length = 24 + L + rest.length := by
    rw [hd']
    have hmg : MAGIC_NUMBER.length = 4 := by rfl
    simp only [List.length_append, leBytes_length, hckslen, hcmd, hL, hmg]
    omega
  have hmag : d.take 4 = MAGIC_NUMBER := by
    rw [hd']
    exact take_append_len MAGIC_NUMBER _ 4 (by rfl)
  have hcm : cmdOf d = stripNulls cmdf := by
    rw [cmdOf, h4, take_append_len _ _ _ hcmd]
  have hpl : payloadOf d = p := by
    rw [payloadOf, h24, hdl]
    exact take_append_len _ _ _ hL
  have hcko : checksumOf d = cks := by
    rw [checksumOf, h20]
    exact take_append_len _ _ _ hckslen
  have hrest : d.drop (24 + L) = rest := by
    have e : d.drop (24 + L) = (d.drop 24).drop L := by
      rw [List.drop_drop, Nat.add_comm]
    rw [e, h24, drop_append_len _ _ _ hL]
  simp only [List.mem_cons, List.mem_singleton, not_or] at hout
  obtain ⟨o1, o2, o3, o4, o5, o6, o7, o8, o9, o10, -⟩ := hout
  rw [deserialize_msg_spec, if_neg (by omega), if_neg (by simp [hmag]),
      if_neg (by rw [hdl]; omega), hpl, hcko, if_neg (by simp), hcm,
      dispatchPayload_default env _ p o1 (not_or.mpr ⟨o3, o4⟩) o5 o7 o9 o10, hdl,
      hrest]

/-- Counterexample for C8 as stated: for a frame with the unrecognised
command `foo`, valid magic and correct checksum over the 1-byte payload
`0x41`, the returned record holds only the header fields — its payload field
is `none`; the raw payload byte is not part of the record, contradicting
"returns a record containing the header fields plus the raw payload bytes". -/
theorem deserialize_msg_c8_counterexample :
    (deserialize_msg env0 ser0
        (MAGIC_NUMBER ++ (ascii "foo" ++ List.replicate 9 0) ++ [1, 0, 0, 0] ++
          (sha256 (sha256 [0x41])).take 4 ++ [0x41] ++ [0x99])).1 =
      .ok ({ magic_number := MAGIC_NUMBER, command := ascii "foo", length := 1,
             checksum := (sha256 (sha256 [0x41])).take 4, payload := none },
           [0x99]) := by
  decide

/-- Witness for C8 (amended) at the same concrete frame. -/
theorem deserialize_msg_unknown_c8_witness :
    deserialize_msg env0 ser0
        (MAGIC_NUMBER ++ (ascii "foo" ++ List.replicate 9 0) ++ leBytes 4 1 ++
          (sha256 (sha256 [0x41])).take 4 ++ [0x41] ++ [0x99]) =
      (.ok ({ magic_number := MAGIC_NUMBER,
              command := stripNulls (ascii "foo" ++ List.replicate 9 0), length := 1,
              checksum := (sha256 (sha256 [0x41])).take 4, payload := none },
            [0x99]), ser0) :=
  deserialize_msg_unknown_c8 env0 ser0 (ascii "foo" ++ List.replicate 9 0) 1
    [0x41] [0x99] (by decide) (by decide) (by decide) (by decide)

/-! ## C7: semantics of `Connection.recv` -/

theorem recvAcc_ok {chunks : List (List Nat)} {need : Nat} {data : List Nat}
    {rest : List (List Nat)} (h : recvAcc chunks need = .ok (data, rest)) :
    need ≤ data.length ∧
      ∃ used, chunks = used ++ rest ∧ data = used.flatten ∧ ∀ c ∈ used, c ≠ [] := by
  induction chunks generalizing need data rest with
  | nil =>
      unfold recvAcc at h
      split at h
      · next hn =>
          injection h with h
          injection h with h1 h2
          subst h1
          subst h2
          exact ⟨by omega, [], rfl, rfl, by simp⟩
      · exact Except.noConfusion h
  | cons c cs ih =>
      unfold recvAcc at h
      dsimp only at h
      split at h
      · next hn =>
          injection h with h
          injection h with h1 h2
          subst h1
          subst h2
          exact ⟨by omega, [], rfl, rfl, by simp⟩
      · next hn =>
          split at h
          · exact Except.noConfusion h
          · next hc =>
              split at h
              · next r cs' heq =>
                  injection h with h
                  injection h with h1 h2
                  subst h1
                  subst h2
                  obtain ⟨hlen, used', hu1, hu2, hu3⟩ := ih heq
                  refine ⟨?_, c :: used', ?_, ?_, ?_⟩
                  · simp only [List.length_append]
                    omega
                  · simp [hu1]
                  · simp [hu2]
                  · intro x hx
                    rcases List.mem_cons.mp hx with rfl | hx
                    · exact hc
                    · exact hu3 x hx
              · exact Except.noConfusion h

theorem recvAcc_closed : ∀ (pre post : List (List Nat)) (need : Nat), 0 < need →
    (∀ c ∈ pre, c ≠ []) → (pre.map List.length).sum < need →
    recvAcc (pre ++ [] :: post) need = .error .remoteClosed := by
  intro pre
  induction pre with
  | nil =>
      intro post need hpos _ _
      unfold recvAcc
      rw [if_neg (by omega)]
      rfl
  | cons c pre ih =>
      intro post need hpos hne hsum
      have hc : c ≠ [] := hne c (by simp)
      have hcpos : 0 < c.length := List.length_pos.mpr hc
      simp only [List.map_cons, List.sum_cons] at hsum
      unfold recvAcc
      rw [if_neg (by omega)]
      simp only [List.cons_append]
      rw [if_neg hc]
      have hrec : recvAcc (pre ++ [] :: post) (need - c.length) = .error .remoteClosed := by
        apply ih post (need - c.length) (by omega)
          (fun x hx => hne x (by simp [hx])) (by omega)
      rw [hrec]

/-- C7 (amended): with `length > 0`, `Connection.recv` accumulates whole
chunks until at least `length` bytes have been read, and returns all bytes
of the consumed chunks (possibly more than `length`, since the last chunk is
not split); a zero-length chunk reached before the target raises
`RemoteHostClosedConnection`. -/
theorem conn_recv_c7 :
    (∀ (length : Nat) (chunks : List (List Nat)) (data : List Nat)
        (rest : List (List Nat)), 0 < length →
        conn_recv length chunks = .ok (data, rest) →
        length ≤ data.length ∧
          ∃ used, chunks = used ++ rest ∧ data = used.flatten ∧ ∀ c ∈ used, c ≠ []) ∧
    (∀ (length : Nat) (pre post : List (List Nat)), 0 < length →
        (∀ c ∈ pre, c ≠ []) → (pre.map List.length).sum < length →
        conn_recv length (pre ++ [] :: post) = .error .remoteClosed) := by
  constructor
  · intro length chunks data rest hpos h
    unfold conn_recv at h
    rw [if_pos hpos] at h
    exact recvAcc_ok h
  · intro length pre post hpos hne hsum
    unfold conn_recv
    rw [if_pos hpos]
    exact recvAcc_closed pre post length hpos hne hsum

/-- Counterexample for C7 as stated: asking `recv` for exactly 1 byte when
the peer delivers a 2-byte chunk returns 2 bytes, not "exactly that many". -/
theorem conn_recv_c7_counterexample :
    conn_recv 1 [[1, 2]] = .ok ([1, 2], []) ∧ ([1, 2] : List Nat).length ≠ 1 := by
  decide

/-- Witness for C7 (amended) at two concrete transcripts. -/
theorem conn_recv_c7_witness :
    (2 ≤ ([1, 2] : List Nat).length ∧
      ∃ used, ([[1, 2], [3]] : List (List Nat)) = used ++ [[3]] ∧
        ([1, 2] : List Nat) = used.flatten ∧ ∀ c ∈ used, c ≠ []) ∧
    conn_recv 3 ([[1]] ++ [] :: [[9]]) = .error .remoteClosed :=
  ⟨conn_recv_c7.1 2 [[1, 2], [3]] [1, 2] [[3]] (by decide) (by decide),
   conn_recv_c7.2 3 [[1]] [[9]] (by decide) (by decide) (by decide)⟩

/-! ## C10: the PayloadTooShort retry cannot fail with PayloadTooShort again -/

/-- C10: if `deserialize_msg` fails with `PayloadTooShortError` and the
recovery `recv` (requesting `required_len` minus the buffer length) returns
without a transport error, then retrying on the extended buffer cannot raise
`PayloadTooShortError` again. -/
theorem retry_no_payloadTooShort_c10 (env : Env) (s s1 : Serializer)
    (d more : List Nat) (chunks rest : List (List Nat))
    (h1 : deserialize_msg env s d = (.error .payloadTooShort, s1))
    (h2 : conn_recv (s1.required_len - d.length) chunks = .ok (more, rest)) :
    (deserialize_msg env s1 (d ++ more)).1 ≠ .error .payloadTooShort := by
  rw [deserialize_msg_spec] at h1
  split at h1
  · exact absurd (congrArg Prod.fst h1) (by simp)
  · split at h1
    · exact absurd (congrArg Prod.fst h1) (by simp)
    · split at h1
      case isFalse =>
        split at h1
        · exact absurd (congrArg Prod.fst h1) (by simp)
        · split at h1
          · next e heq =>
              have hb := dispatchPayload_benign heq
              have he : Except.error (ε := PErr) e = .error .payloadTooShort :=
                congrArg Prod.fst h1
              injection he with he
              subst he
              rcases hb with hb | hb | hb <;> exact PErr.noConfusion hb
          · exact absurd (congrArg Prod.fst h1) (by simp)
      case isTrue h24 hm hshort =>
        have hs1 : s1 = { s with required_len := 24 + declaredLen d } :=
          (congrArg Prod.snd h1).symm
        have hreq : s1.required_len = 24 + declaredLen d := by rw [hs1]
        have h24' : 24 ≤ d.length := by omega
        have hrpos : 0 < s1.required_len - d.length := by
          rw [hreq]
          omega
        have hmore : s1.required_len - d.length ≤ more.length := by
          unfold conn_recv at h2
          rw [if_pos hrpos] at h2
          exact (recvAcc_ok h2).1
        have hlen2 : 24 + declaredLen d ≤ (d ++ more).length := by
          rw [List.length_append]
          omega
        have htake4 : (d ++ more).take 4 = d.take 4 := by
          rw [List.take_append_of_le_length (by omega)]
        have hmagic : d.take 4 = MAGIC_NUMBER := not_not.mp hm
        have hdrop16 : (d ++ more).drop 16 = d.drop 16 ++ more := by
          rw [List.drop_append_of_le_length (by omega)]
        have hdl2 : declaredLen (d ++ more) = declaredLen d := by
          rw [declaredLen, hdrop16,
              List.take_append_of_le_length (by simp only [List.length_drop]; omega)]
          rfl
        rw [deserialize_msg_spec, if_neg (by omega),
            if_neg (by simp [htake4, hmagic]), hdl2,
            if_neg (by rw [List.length_append]; omega)]
        split
        · simp
        · split
          · next e heq =>
              have hb := dispatchPayload_benign heq
              intro hcon
              have hcon' : Except.error (ε := PErr) e = .error .payloadTooShort := hcon
              injection hcon' with he
              subst he
              rcases hb with hb | hb | hb <;> exact PErr.noConfusion hb
          · simp

/-- Witness for C10 at a concrete short frame and a 1-byte recovery chunk. -/
theorem retry_no_payloadTooShort_c10_witness :
    (deserialize_msg env0 { ser0 with required_len := 25 }
        ((MAGIC_NUMBER ++ List.replicate 12 0 ++ [1, 0, 0, 0] ++ [0, 0, 0, 0]) ++
          [0x42])).1 ≠ .error .payloadTooShort :=
  retry_no_payloadTooShort_c10 env0 ser0 { ser0 with required_len := 25 }
    (MAGIC_NUMBER ++ List.replicate 12 0 ++ [1, 0, 0, 0] ++ [0, 0, 0, 0])
    [0x42] [[0x42]] [] (by decide) (by decide)

/-! ## C6: auto-pong in `get_messages` -/

theorem payloadFor_pong (env : Env) (s : Serializer) (n : Nat) :
    payloadFor env s (ascii "pong") { kw0 with nonce := some n } =
      serialize_ping_payload n := by
  unfold payloadFor
  rw [if_neg (by decide), if_pos (Or.inr rfl)]
  rfl

/-- The pong frame does not depend on the ambient environment or the
serializer state. -/
theorem pong_frame_indep (env : Env) (s : Serializer) (env' : Env)
    (s' : Serializer) (n : Nat) : pong_frame env s n = pong_frame env' s' n := by
  unfold pong_frame serialize_msg
  rw [payloadFor_pong env s n, payloadFor_pong env' s' n]

theorem pongsFor_cons (m : Msg) (l : List Msg) :
    pongsFor (m :: l) =
      (if m.command = ascii "ping" then [pong_frame env0 ser0 (msgNonce m)]
       else []) ++ pongsFor l := by
  unfold pongsFor
  rw [List.filterMap_cons]
  by_cases hc : m.command = ascii "ping" <;> simp [hc]

/-- A successfully decoded message whose command is `ping` carries a nonce. -/
theorem deserialize_msg_ping_payload {env : Env} {s s' : Serializer}
    {d rest : List Nat} {msg : Msg}
    (h : deserialize_msg env s d = (.ok (msg, rest), s'))
    (hc : msg.command = ascii "ping") :
    msg.payload = some (.pingpong (msgNonce msg)) := by
  rw [deserialize_msg_spec] at h
  split at h
  · exact absurd (congrArg Prod.fst h) (by simp)
  · split at h
    · exact absurd (congrArg Prod.fst h) (by simp)
    · split at h
      · exact absurd (congrArg Prod.fst h) (by simp)
      · split at h
        · exact absurd (congrArg Prod.fst h) (by simp)
        · split at h
          · exact absurd (congrArg Prod.fst h) (by simp)
          · next p heq =>
              have hfst : Except.ok (α := Msg × List Nat)
                  ({ magic_number := MAGIC_NUMBER, command := cmdOf d,
                     length := declaredLen d, checksum := checksumOf d,
                     payload := p }, d.drop (24 + declaredLen d)) =
                  .ok (msg, rest) := congrArg Prod.fst h
              injection hfst with hfst
              injection hfst with hmsg hrest
              subst hmsg
              simp only at hc ⊢
              rw [hc] at heq
              unfold dispatchPayload at heq
              rw [if_neg (by decide), if_pos (Or.inl rfl)] at heq
              split at heq
              · exact Except.noConfusion heq
              · next n _ hping =>
                  injection heq with heq
                  subst heq
                  rfl

/-- Specification of the parse loop: on success the returned message list
extends the accumulator, and the frames sent are exactly one pong per decoded
`ping`, in order, echoing that ping's nonce. -/
theorem getMessagesLoop_spec (env : Env) :
    ∀ (fuel : Nat) (s : Serializer) (data : List Nat)
      (chunks sent : List (List Nat)) (acc out : List Msg) (s' : Serializer)
      (chunks' sent' : List (List Nat)),
      getMessagesLoop env fuel s data chunks sent acc = .ok (out, s', chunks', sent') →
      ∃ newMsgs, out = acc ++ newMsgs ∧ sent' = sent ++ pongsFor newMsgs ∧
        ∀ m ∈ newMsgs, m.command = ascii "ping" →
          m.payload = some (.pingpong (msgNonce m)) := by
  intro fuel
  induction fuel with
  | zero =>
      intro s data chunks sent acc out s' chunks' sent' h
      unfold getMessagesLoop at h
      split at h
      · injection h with h
        injection h with h1 h
        injection h with h2 h
        injection h with h3 h4
        subst h1; subst h4
        exact ⟨[], by simp, by simp [pongsFor], by simp⟩
      · exact Except.noConfusion h
  | succ fuel ih =>
      intro s data chunks sent acc out s' chunks' sent' h
      unfold getMessagesLoop at h
      split at h
      · injection h with h
        injection h with h1 h
        injection h with h2 h
        injection h with h3 h4
        subst h1; subst h4
        exact ⟨[], by simp, by simp [pongsFor], by simp⟩
      · split at h
        · next msg rest s1 hdes =>
            obtain ⟨new', hout, hsent, hinv⟩ := ih _ _ _ _ _ _ _ _ _ h
            refine ⟨msg :: new', by simpa using hout, ?_, ?_⟩
            · rw [hsent, pongsFor_cons]
              by_cases hping : msg.command = ascii "ping"
              · rw [if_pos hping, if_pos hping,
                    pong_frame_indep env s1 env0 ser0 (msgNonce msg)]
                simp
              · rw [if_neg hping, if_neg hping]
                simp
            · intro m hm hmc
              rcases List.mem_cons.mp hm with rfl | hm
              · exact deserialize_msg_ping_payload hdes hmc
              · exact hinv m hm hmc
        · next s1 hdes =>
            split at h
            · exact Except.noConfusion h
            · next more chunks2 hrecv =>
                split at h
                · next msg rest s2 hdes2 =>
                    obtain ⟨new', hout, hsent, hinv⟩ := ih _ _ _ _ _ _ _ _ _ h
                    refine ⟨msg :: new', by simpa using hout, ?_, ?_⟩
                    · rw [hsent, pongsFor_cons]
                      by_cases hping : msg.command = ascii "ping"
                      · rw [if_pos hping, if_pos hping,
                            pong_frame_indep env s2 env0 ser0 (msgNonce msg)]
                        simp
                      · rw [if_neg hping, if_neg hping]
                        simp
                    · intro m hm hmc
                      rcases List.mem_cons.mp hm with rfl | hm
                      · exact deserialize_msg_ping_payload hdes2 hmc
                      · exact hinv m hm hmc
                · exact Except.noConfusion h
        · exact Except.noConfusion h

/-- C6: in one `get_messages` call, every decoded `ping` with nonce N causes
exactly one pong frame with the same nonce N to be written to the stream
before the call returns, in decode order; this happens regardless of the
command allow-list, which only filters the list returned to the caller. -/
theorem get_messages_autopong_c6 (env : Env) (fuel : Nat) (s : Serializer)
    (length : Nat) (commands : List (List Nat)) (chunks sent : List (List Nat))
    (out : List Msg) (s' : Serializer) (chunks' sent' : List (List Nat))
    (h : get_messages env fuel s length commands chunks sent =
      .ok (out, s', chunks', sent')) :
    ∃ msgsAll : List Msg,
      sent' = sent ++ pongsFor msgsAll ∧
      (∀ m ∈ msgsAll, m.command = ascii "ping" →
        m.payload = some (.pingpong (msgNonce m))) ∧
      out = (if msgsAll = [] ∨ commands = [] then msgsAll
             else msgsAll.filter (fun m => commands.contains m.command)) := by
  unfold get_messages at h
  split at h
  · exact Except.noConfusion h
  · next data chunks1 hrecv =>
      split at h
      · exact Except.noConfusion h
      · next msgs s1 chunks2 st2 hloop =>
          obtain ⟨newMsgs, hout, hsent, hinv⟩ :=
            getMessagesLoop_spec env _ _ _ _ _ _ _ _ _ _ hloop
          rw [List.nil_append] at hout
          subst hout
          injection h with h
          injection h with h1 h
          injection h with h2 h
          injection h with h3 h4
          subst h1; subst h4
          exact ⟨msgs, hsent, hinv, rfl⟩

/-- Witness for C6: a single-frame run carrying `ping` with nonce 7; the
call returns the ping message and exactly the matching pong frame is sent. -/
theorem get_messages_autopong_c6_witness :
    ∃ msgsAll : List Msg,
      [pong_frame env0 ser0 7] = [] ++ pongsFor msgsAll ∧
      (∀ m ∈ msgsAll, m.command = ascii "ping" →
        m.payload = some (.pingpong (msgNonce m))) ∧
      [{ magic_number := MAGIC_NUMBER, command := ascii "ping", length := 8,
         checksum := (sha256 (sha256 (leBytes 8 7))).take 4,
         payload := some (.pingpong 7) }] =
        (if msgsAll = [] ∨ ([] : List (List Nat)) = [] then msgsAll
         else msgsAll.filter (fun m => ([] : List (List Nat)).contains m.command)) :=
  get_messages_autopong_c6 env0 2 ser0 0 []
    [(serialize_msg env0 ser0 (ascii "ping") { kw0 with nonce := some 7 }).getD []]
    []
    [{ magic_number := MAGIC_NUMBER, command := ascii "ping", length := 8,
       checksum := (sha256 (sha256 (leBytes 8 7))).take 4,
       payload := some (.pingpong 7) }]
    ser0 [] [pong_frame env0 ser0 7] (by decide)

/-! ## C9: determinism of the codec -/

/-- The command a buffer's header names, when a full header is present. -/
def headerCommand (d : List Nat) : Option (List Nat) :=
  if 24 ≤ d.length then some (cmdOf d) else none

theorem dispatchPayload_indep (e e' : Env) (c p : List Nat)
    (h : c ≠ ascii "inv") : dispatchPayload e c p = dispatchPayload e' c p := by
  unfold dispatchPayload
  by_cases h1 : c = ascii "version"
  · rw [if_pos h1, if_pos h1]
  rw [if_neg h1, if_neg h1]
  by_cases h2 : c = ascii "ping" ∨ c = ascii "pong"
  · rw [if_pos h2, if_pos h2]
  rw [if_neg h2, if_neg h2]
  by_cases h3 : c = ascii "addr"
  · rw [if_pos h3, if_pos h3]
  rw [if_neg h3, if_neg h3]
  rw [if_neg h, if_neg h]

/-- C9 (amended): for fixed ambient wall clock and RNG draw the codec is
deterministic; encoding any command other than `version` and decoding any
buffer whose header does not name `inv` do not depend on the ambient
environment at all (whereas `serialize_version_payload` embeds the current
time and a fresh random nonce, and `deserialize_inv_payload` stamps the
decode-time clock). -/
theorem serde_determinism_c9 :
    (∀ (e e' : Env) (s : Serializer) (cmd : List Nat) (kw : Kwargs),
        cmd ≠ ascii "version" →
        serialize_msg e s cmd kw = serialize_msg e' s cmd kw) ∧
    (∀ (e e' : Env) (s : Serializer) (d : List Nat),
        headerCommand d ≠ some (ascii "inv") →
        deserialize_msg e s d = deserialize_msg e' s d) := by
  constructor
  · intro e e' s cmd kw hv
    unfold serialize_msg
    rw [show payloadFor e s cmd kw = payloadFor e' s cmd kw from by
          unfold payloadFor
          rw [if_neg hv, if_neg hv]]
  · intro e e' s d hno
    rw [deserialize_msg_spec e s d, deserialize_msg_spec e' s d]
    by_cases h24 : d.length < 24
    · rw [if_pos h24, if_pos h24]
    · have hcmd : cmdOf d ≠ ascii "inv" := by
        intro hc
        apply hno
        unfold headerCommand
        rw [if_pos (by omega), hc]
      rw [dispatchPayload_indep e e' (cmdOf d) (payloadOf d) hcmd]

/-- Counterexample for C9 as stated: two `serialize_version_payload` calls
with identical explicit arguments but different ambient wall-clock values
produce different bytes, so serialization does not depend only on its
explicit inputs. -/
theorem serde_c9_counterexample :
    serialize_version_payload { now := 0, nowMs := 0, rand64 := 0 } ser0
        (1, "0.0.0.0", 0) (1, "0.0.0.0", 0) ≠
      serialize_version_payload { now := 1, nowMs := 0, rand64 := 0 } ser0
        (1, "0.0.0.0", 0) (1, "0.0.0.0", 0) := by
  decide

/-- Witness for C9 (amended) at a `ping` encode and a short-buffer decode,
under two different ambient environments. -/
theorem serde_determinism_c9_witness :
    serialize_msg env0 ser0 (ascii "ping") { kw0 with nonce := some 1 } =
      serialize_msg { now := 5, nowMs := 6, rand64 := 7 } ser0 (ascii "ping")
        { kw0 with nonce := some 1 } ∧
    deserialize_msg env0 ser0 [1, 2, 3] =
      deserialize_msg { now := 5, nowMs := 6, rand64 := 7 } ser0 [1, 2, 3] :=
  ⟨serde_determinism_c9.1 env0 { now := 5, nowMs := 6, rand64 := 7 } ser0
      (ascii "ping") { kw0 with nonce := some 1 } (by decide),
   serde_determinism_c9.2 env0 { now := 5, nowMs := 6, rand64 := 7 } ser0
      [1, 2, 3] (by decide)⟩

/-! ## C4: network address encode/decode round-trips -/

theorem packU_of_lt {k n : Nat} (h : n < 2 ^ (8 * k)) :
    packU k n = some (leBytes k n) := by
  unfold packU
  rw [if_pos h]

theorem unpackU_leBytes (k n : Nat) (rest : List Nat) (h : n < 2 ^ (8 * k)) :
    unpackU k (leBytes k n ++ rest) = .ok (n, rest) := by
  unfold unpackU
  rw [if_pos (by simp [leBytes_length]), take_leBytes_append, drop_leBytes_append,
      leNat_leBytes_of_lt h]

/-- C4 (amended, per the spec's three example `NetAddr`s): for every services
value below `2^64`, encoding and then decoding the IPv4 address
`1.2.3.4:8333`, the IPv6 address `2001:db8::1:8333` and the onion address
`abcdefghij234567.onion:8333` yields the same logical address, port and
services, with exactly the matching one of `ipv4`/`ipv6`/`onion` populated
and the other two empty; the port is serialized big-endian (`20 8D`) and the
IPv4 case uses 10 zero bytes, 2 `0xFF` bytes, then the 4 v4 bytes.  (An IPv6
address whose 16 bytes begin with the onion marker `FD 87 D8 7E EB 43`
instead decodes as an onion name — see the counterexample.) -/
theorem netaddr_roundtrip_c4 (services : Nat) (hs : services < 2 ^ 64) :
    (serialize_network_address none services "1.2.3.4" 8333 =
        some (leBytes 8 services ++
          (List.replicate 10 0 ++ [0xFF, 0xFF] ++ [1, 2, 3, 4]) ++ [0x20, 0x8D]) ∧
      deserialize_network_address
          (leBytes 8 services ++
            (List.replicate 10 0 ++ [0xFF, 0xFF] ++ [1, 2, 3, 4]) ++ [0x20, 0x8D])
          false =
        .ok ({ timestamp := none, services, ipv4 := "1.2.3.4", ipv6 := "",
               onion := "", port := 8333 }, [])) ∧
    (serialize_network_address none services "2001:db8::1" 8333 =
        some (leBytes 8 services ++
          [0x20, 0x01, 0x0D, 0xB8, 0, 0, 0, 0, 0, 0, 0, 0, 0, 0, 0, 1] ++
          [0x20, 0x8D]) ∧
      deserialize_network_address
          (leBytes 8 services ++
            [0x20, 0x01, 0x0D, 0xB8, 0, 0, 0, 0, 0, 0, 0, 0, 0, 0, 0, 1] ++
            [0x20, 0x8D]) false =
        .ok ({ timestamp := none, services, ipv4 := "", ipv6 := "2001:db8::1",
               onion := "", port := 8333 }, [])) ∧
    (serialize_network_address none services "abcdefghij234567.onion" 8333 =
        some (leBytes 8 services ++
          (onionMarker ++ [0, 68, 50, 20, 199, 66, 117, 190, 119, 223]) ++
          [0x20, 0x8D]) ∧
      deserialize_network_address
          (leBytes 8 services ++
            (onionMarker ++ [0, 68, 50, 20, 199, 66, 117, 190, 119, 223]) ++
            [0x20, 0x8D]) false =
        .ok ({ timestamp := none, services, ipv4 := "", ipv6 := "",
               onion := "abcdefghij234567.onion", port := 8333 }, [])) := by
  have hs' : services < 2 ^ (8 * 8) := hs
  refine ⟨⟨?_, ?_⟩, ⟨?_, ?_⟩, ⟨?_, ?_⟩⟩
  · unfold serialize_network_address
    rw [packU_of_lt hs']
    rfl
  · unfold deserialize_network_address
    rw [show readAddrTimestamp false
          (leBytes 8 services ++
            (List.replicate 10 0 ++ [0xFF, 0xFF] ++ [1, 2, 3, 4]) ++ [0x20, 0x8D]) =
          .ok (none, leBytes 8 services ++
            ((List.replicate 10 0 ++ [0xFF, 0xFF] ++ [1, 2, 3, 4]) ++ [0x20, 0x8D]))
        from by rw [readAddrTimestamp, if_neg (by simp), List.append_assoc]]
    dsimp only
    rw [unpackU_leBytes 8 services _ hs']
    rfl
  · unfold serialize_network_address
    rw [packU_of_lt hs']
    rfl
  · unfold deserialize_network_address
    rw [show readAddrTimestamp false
          (leBytes 8 services ++
            [0x20, 0x01, 0x0D, 0xB8, 0, 0, 0, 0, 0, 0, 0, 0, 0, 0, 0, 1] ++
            [0x20, 0x8D]) =
          .ok (none, leBytes 8 services ++
            ([0x20, 0x01, 0x0D, 0xB8, 0, 0, 0, 0, 0, 0, 0, 0, 0, 0, 0, 1] ++
              [0x20, 0x8D]))
        from by rw [readAddrTimestamp, if_neg (by simp), List.append_assoc]]
    dsimp only
    rw [unpackU_leBytes 8 services _ hs']
    rfl
  · unfold serialize_network_address
    rw [packU_of_lt hs']
    rfl
  · unfold deserialize_network_address
    rw [show readAddrTimestamp false
          (leBytes 8 services ++
            (onionMarker ++ [0, 68, 50, 20, 199, 66, 117, 190, 119, 223]) ++
            [0x20, 0x8D]) =
          .ok (none, leBytes 8 services ++
            ((onionMarker ++ [0, 68, 50, 20, 199, 66, 117, 190, 119, 223]) ++
              [0x20, 0x8D]))
        from by rw [readAddrTimestamp, if_neg (by simp), List.append_assoc]]
    dsimp only
    rw [unpackU_leBytes 8 services _ hs']
    rfl

/-- Counterexample for C4 as stated: the IPv6 address `fd87:d87e:eb43::1`
(whose 16 bytes begin with the onion marker) encodes fine, but decoding
populates the `onion` field (`aaaaaaaaaaaaaaab.onion`) and leaves `ipv6`
empty, so the IPv6 round-trip does not hold for every IPv6 address. -/
theorem netaddr_c4_counterexample :
    ((deserialize_network_address
        ((serialize_network_address none 1 "fd87:d87e:eb43::1" 8333).getD [])
        false).toOption.map fun p => (p.1.ipv4, p.1.ipv6, p.1.onion, p.1.port)) =
      some ("", "", "aaaaaaaaaaaaaaab.onion", 8333) := by
  decide

/-- Witness for C4 (amended) at `services = 1`. -/
theorem netaddr_roundtrip_c4_witness :
    serialize_network_address none 1 "1.2.3.4" 8333 =
        some (leBytes 8 1 ++
          (List.replicate 10 0 ++ [0xFF, 0xFF] ++ [1, 2, 3, 4]) ++ [0x20, 0x8D]) ∧
      deserialize_network_address
          (leBytes 8 1 ++
            (List.replicate 10 0 ++ [0xFF, 0xFF] ++ [1, 2, 3, 4]) ++ [0x20, 0x8D])
          false =
        .ok ({ timestamp := none, services := 1, ipv4 := "1.2.3.4", ipv6 := "",
               onion := "", port := 8333 }, []) :=
  (netaddr_roundtrip_c4 1 (by decide)).1

/-! ## C5: tx_hash — re-serialisation versus the original payload slice -/

/-- The alternative tx-hash implementation the spec describes as externally
identical: hash the original payload slice directly,
`hex(reverse(sha256(sha256(slice))))`. -/
def tx_hash_of_slice (p : List Nat) : String :=
  hexlify (sha256 (sha256 p)).reverse

theorem unpackUst_leBytes (k n : Nat) (rest : List Nat) (h : n < 2 ^ (8 * k)) :
    unpackUst k (leBytes k n ++ rest) = .ok (n, rest) := by
  unfold unpackUst
  rw [if_pos (by simp [leBytes_length]), take_leBytes_append, drop_leBytes_append,
      leNat_leBytes_of_lt h]

theorem serialize_int_isSome {n : Nat} (h : n < 2 ^ 64) :
    ∃ e, serialize_int n = some e := by
  unfold serialize_int
  repeat' split
  all_goals first
    | exact ⟨_, rfl⟩
    | exact absurd h (by assumption)

theorem unpackU1_cons (a : Nat) (l : List Nat) : unpackU 1 (a :: l) = .ok (a, l) := by
  unfold unpackU
  rw [if_pos (by simp)]
  simp [leNat]

theorem deserialize_int_serialize {n : Nat} {e rest : List Nat}
    (he : serialize_int n = some e) : deserialize_int (e ++ rest) = .ok (n, rest) := by
  unfold serialize_int at he
  split at he
  · next h1 =>
      injection he with he
      subst he
      unfold deserialize_int
      rw [List.singleton_append, unpackU1_cons]
      dsimp only
      rw [if_neg (by omega), if_neg (by omega), if_neg (by omega)]
  · split at he
    · next h1 h2 =>
        injection he with he
        subst he
        unfold deserialize_int
        rw [List.cons_append, unpackU1_cons]
        dsimp only
        rw [if_pos rfl]
        exact unpackU_leBytes 2 n rest (by omega)
    · split at he
      · next h1 h2 h3 =>
          injection he with he
          subst he
          unfold deserialize_int
          rw [List.cons_append, unpackU1_cons]
          dsimp only
          rw [if_neg (by omega), if_pos rfl]
          exact unpackU_leBytes 4 n rest (by omega)
      · split at he
        · next h1 h2 h3 h4 =>
            injection he with he
            subst he
            unfold deserialize_int
            rw [List.cons_append, unpackU1_cons]
            dsimp only
            rw [if_neg (by omega), if_neg (by omega), if_pos rfl]
            exact unpackU_leBytes 8 n rest (by assumption)
        · exact Option.noConfusion he

theorem packI_of_bounds {k : Nat} {v : Int} (h1 : -(2 ^ (8 * k - 1) : Int) ≤ v)
    (h2 : v < 2 ^ (8 * k - 1)) :
    packI k v = some (leBytes k (v % (2 ^ (8 * k) : Int)).toNat) := by
  unfold packI
  rw [if_pos ⟨h1, h2⟩]

theorem sdec8_packI {v : Int} {e : List Nat} (he : packI 8 v = some e) :
    sdec 8 e = v ∧ e.length = 8 := by
  unfold packI at he
  split at he
  case isFalse => exact Option.noConfusion he
  case isTrue hb =>
    obtain ⟨hlo, hhi⟩ := hb
    have he' : leBytes 8 (v % (2 ^ (8 * 8) : Int)).toNat = e := Option.some_inj.mp he
    subst he'
    have hM : ((2 : Int) ^ (8 * 8)) = 18446744073709551616 := by norm_num
    have hH : ((2 : Int) ^ (8 * 8 - 1)) = 9223372036854775808 := by norm_num
    have hNH : ((2 : Nat) ^ (8 * 8 - 1)) = 9223372036854775808 := by norm_num
    have hNM : ((2 : Nat) ^ (8 * 8)) = 18446744073709551616 := by norm_num
    rw [hH] at hlo hhi
    have h0 : (0 : Int) ≤ v % 2 ^ (8 * 8) := Int.emod_nonneg v (by positivity)
    have h1 : v % (2 ^ (8 * 8) : Int) < 2 ^ (8 * 8) := Int.emod_lt_of_pos v (by positivity)
    rw [hM] at h0 h1
    have hmlt : (v % (2 ^ (8 * 8) : Int)).toNat < 2 ^ (8 * 8) := by
      rw [hNM, hM]
      omega
    refine ⟨?_, leBytes_length _ _⟩
    unfold sdec
    rw [leNat_leBytes_of_lt hmlt, hNH, hM]
    split
    · next hsm => omega
    · next hsm => omega

theorem unpackIst_packI8 {v : Int} {e rest : List Nat}
    (he : packI 8 v = some e) : unpackIst 8 (e ++ rest) = .ok (v, rest) := by
  obtain ⟨hs, hl⟩ := sdec8_packI he
  unfold unpackIst
  rw [if_pos (by simp [hl]), take_append_len _ _ _ hl, drop_append_len _ _ _ hl, hs]

theorem hexVal_hexDigit : ∀ n : Nat, n < 16 → hexVal (hexDigit n) = some n := by
  decide

theorem unhexChars_hexlify (b : List Nat) (hb : ∀ x ∈ b, x < 256) :
    unhexChars (b.flatMap fun x => [hexDigit (x / 16 % 16), hexDigit (x % 16)]) =
      some b := by
  induction b with
  | nil => rfl
  | cons x b ih =>
      have hx : x < 256 := hb x (by simp)
      have h1 := hexVal_hexDigit (x / 16 % 16) (by omega)
      have h2 := hexVal_hexDigit (x % 16) (by omega)
      have h3 := ih fun y hy => hb y (List.mem_cons_of_mem _ hy)
      rw [List.flatMap_cons, List.cons_append, List.cons_append, List.nil_append]
      simp only [unhexChars, h1, h2, h3]
      have hv : 16 * (x / 16 % 16) + x % 16 = x := by omega
      rw [hv]

theorem unhexlify_hexlify (b : List Nat) (hb : ∀ x ∈ b, x < 256) :
    unhexlify (hexlify b) = some b := by
  unfold unhexlify hexlify
  exact unhexChars_hexlify b hb

/-! Well-formedness of tx records (the image of the decoder). -/

def WfTxIn (ti : TxIn) : Prop :=
  (∃ b : List Nat, b.length = 32 ∧ (∀ x ∈ b, x < 256) ∧ ti.prev_out_hash = hexlify b) ∧
  ti.prev_out_index < 2 ^ 32 ∧ ti.script_length = ti.script.length ∧
  ti.script_length < 2 ^ 64 ∧ ti.sequence < 2 ^ 32

def WfTxOut (to_ : TxOut) : Prop :=
  -(2 ^ 63 : Int) ≤ to_.value ∧ to_.value < 2 ^ 63 ∧
  to_.script_length = to_.script.length ∧ to_.script_length < 2 ^ 64

def WfTx (t : TxMsg) : Prop :=
  t.version < 2 ^ 32 ∧ t.lock_time < 2 ^ 32 ∧
  t.tx_in_count = t.tx_in.length ∧ t.tx_in_count < 2 ^ 64 ∧
  (∀ ti ∈ t.tx_in, WfTxIn ti) ∧
  t.tx_out_count = t.tx_out.length ∧ t.tx_out_count < 2 ^ 64 ∧
  (∀ o ∈ t.tx_out, WfTxOut o)

theorem serList_isSome {α : Type} {f : α → Option (List Nat)} :
    ∀ {l : List α}, (∀ a ∈ l, ∃ e, f a = some e) → ∃ e, serList f l = some e := by
  intro l
  induction l with
  | nil => exact fun _ => ⟨[], rfl⟩
  | cons a l ih =>
      intro h
      obtain ⟨ea, hea⟩ := h a (by simp)
      obtain ⟨el, hel⟩ := ih fun x hx => h x (by simp [hx])
      exact ⟨ea ++ el, by unfold serList; rw [hea, hel]; rfl⟩

theorem desList_serList {α : Type} {P : α → Prop} {f : α → Option (List Nat)}
    {g : List Nat → Except PErr (α × List Nat)}
    (hfg : ∀ (a : α) (e rest : List Nat), P a → f a = some e →
      g (e ++ rest) = .ok (a, rest)) :
    ∀ (l : List α) (e rest : List Nat), (∀ a ∈ l, P a) → serList f l = some e →
      desList g l.length (e ++ rest) = .ok (l, rest) := by
  intro l
  induction l with
  | nil =>
      intro e rest _ he
      have he' : ([] : List Nat) = e := Option.some_inj.mp he
      subst he'
      rfl
  | cons a l ih =>
      intro e rest hP he
      unfold serList at he
      cases hfa : f a with
      | none => rw [hfa] at he; exact Option.noConfusion he
      | some b =>
          rw [hfa] at he
          cases hsl : serList f l with
          | none => rw [hsl] at he; exact Option.noConfusion he
          | some r =>
              rw [hsl] at he
              have he' : b ++ r = e := Option.some_inj.mp he
              subst he'
              show desList g (l.length + 1) ((b ++ r) ++ rest) = .ok (a :: l, rest)
              unfold desList
              rw [List.append_assoc, hfg a b (r ++ rest) (hP a (by simp)) hfa]
              dsimp only
              rw [ih r rest (fun x hx => hP x (by simp [hx])) hsl]

/-- As `desList_serList`, for a count known to equal the list length. -/
theorem desList_serList_count {α : Type} {P : α → Prop} {f : α → Option (List Nat)}
    {g : List Nat → Except PErr (α × List Nat)}
    (hfg : ∀ (a : α) (e rest : List Nat), P a → f a = some e →
      g (e ++ rest) = .ok (a, rest))
    (l : List α) (n : Nat) (e rest : List Nat) (hn : n = l.length)
    (hP : ∀ a ∈ l, P a) (he : serList f l = some e) :
    desList g n (e ++ rest) = .ok (l, rest) := by
  rw [hn]
  exact desList_serList hfg l e rest hP he

theorem serialize_tx_in_isSome {ti : TxIn} (hwf : WfTxIn ti) :
    ∃ e, serialize_tx_in ti = some e := by
  obtain ⟨⟨b, hb32, hb256, hhash⟩, hidx, hsl, hsl64, hseq⟩ := hwf
  obtain ⟨se, hse⟩ := serialize_int_isSome hsl64
  refine ⟨b.reverse ++ leBytes 4 ti.prev_out_index ++ se ++ ti.script ++
    leBytes 4 ti.sequence, ?_⟩
  unfold serialize_tx_in
  rw [hhash, unhexlify_hexlify b hb256, packU_of_lt hidx, hse, packU_of_lt hseq]
  rfl

theorem deserialize_serialize_tx_in {ti : TxIn} {e rest : List Nat}
    (hwf : WfTxIn ti) (he : serialize_tx_in ti = some e) :
    deserialize_tx_in (e ++ rest) = .ok (ti, rest) := by
  obtain ⟨⟨b, hb32, hb256, hhash⟩, hidx, hsl, hsl64, hseq⟩ := hwf
  obtain ⟨se, hse⟩ := serialize_int_isSome hsl64
  have hbrev : b.reverse.length = 32 := by simp [hb32]
  have hd : e ++ rest = b.reverse ++ (leBytes 4 ti.prev_out_index ++
      (se ++ (ti.script ++ (leBytes 4 ti.sequence ++ rest)))) := by
    unfold serialize_tx_in at he
    rw [hhash, unhexlify_hexlify b hb256, packU_of_lt hidx, hse,
        packU_of_lt hseq] at he
    have he' := Option.some_inj.mp he
    rw [← he']
    simp [List.append_assoc]
  rw [hd]
  unfold deserialize_tx_in
  dsimp only
  rw [take_append_len _ _ _ hbrev, drop_append_len _ _ _ hbrev,
      List.reverse_reverse, unpackUst_leBytes 4 _ _ hidx]
  dsimp only
  rw [deserialize_int_serialize hse]
  dsimp only
  rw [take_append_len ti.script _ ti.script_length hsl.symm,
      drop_append_len ti.script _ ti.script_length hsl.symm,
      unpackUst_leBytes 4 _ _ hseq]
  dsimp only
  rw [← hhash]

theorem serialize_tx_out_isSome {o : TxOut} (hwf : WfTxOut o) :
    ∃ e, serialize_tx_out o = some e := by
  obtain ⟨hlo, hhi, hsl, hsl64⟩ := hwf
  obtain ⟨se, hse⟩ := serialize_int_isSome hsl64
  refine ⟨leBytes 8 (o.value % (2 ^ (8 * 8) : Int)).toNat ++ se ++ o.script, ?_⟩
  unfold serialize_tx_out
  rw [packI_of_bounds hlo hhi, hse]
  rfl

theorem deserialize_serialize_tx_out {o : TxOut} {e rest : List Nat}
    (hwf : WfTxOut o) (he : serialize_tx_out o = some e) :
    deserialize_tx_out (e ++ rest) = .ok (o, rest) := by
  obtain ⟨hlo, hhi, hsl, hsl64⟩ := hwf
  obtain ⟨se, hse⟩ := serialize_int_isSome hsl64
  have hv := packI_of_bounds (k := 8) hlo hhi
  have hd : e ++ rest = leBytes 8 (o.value % (2 ^ (8 * 8) : Int)).toNat ++
      (se ++ (o.script ++ rest)) := by
    unfold serialize_tx_out at he
    rw [hv, hse] at he
    have he' := Option.some_inj.mp he
    rw [← he']
    simp [List.append_assoc]
  rw [hd]
  unfold deserialize_tx_out
  rw [show leBytes 8 (o.value % (2 ^ (8 * 8) : Int)).toNat ++ (se ++ (o.script ++ rest)) =
        (leBytes 8 (o.value % (2 ^ (8 * 8) : Int)).toNat ++ (se ++ (o.script ++ rest)))
      from rfl,
      show unpackIst 8 (leBytes 8 (o.value % (2 ^ (8 * 8) : Int)).toNat ++
          (se ++ (o.script ++ rest))) = .ok (o.value, se ++ (o.script ++ rest))
      from unpackIst_packI8 hv]
  dsimp only
  rw [deserialize_int_serialize hse]
  dsimp only
  rw [take_append_len o.script _ o.script_length hsl.symm,
      drop_append_len o.script _ o.script_length hsl.symm]

theorem serialize_tx_payload_hash_irrel (t : TxMsg) (s : String) :
    serialize_tx_payload { t with tx_hash := s } = serialize_tx_payload t := by
  cases t
  rfl

/-- C5 (amended): on payloads in the image of `serialize_tx_payload` (i.e.
with minimally encoded VarInts), the `tx_hash` computed by re-serialising the
decoded record equals the hash of the original consumed payload slice; the
two implementations differ on non-minimal VarInt encodings (see the
counterexample). -/
theorem tx_hash_c5 (t : TxMsg) (p rest : List Nat) (hwf : WfTx t)
    (hp : serialize_tx_payload t = some p) :
    deserialize_tx_payload (p ++ rest) =
      .ok ({ t with tx_hash := tx_hash_of_slice p }, rest) := by
  obtain ⟨hv, hlt, hticnt, htic64, htiwf, htocnt, htoc64, htowf⟩ := hwf
  obtain ⟨ce1, hce1⟩ := serialize_int_isSome htic64
  obtain ⟨ce2, hce2⟩ := serialize_int_isSome htoc64
  obtain ⟨tise, htise⟩ :=
    serList_isSome (f := serialize_tx_in) fun a ha => serialize_tx_in_isSome (htiwf a ha)
  obtain ⟨tose, htose⟩ :=
    serList_isSome (f := serialize_tx_out) fun a ha => serialize_tx_out_isSome (htowf a ha)
  have hd : p ++ rest = leBytes 4 t.version ++ (ce1 ++ (tise ++ (ce2 ++
      (tose ++ (leBytes 4 t.lock_time ++ rest))))) := by
    unfold serialize_tx_payload at hp
    rw [packU_of_lt hv, hce1, htise, hce2, htose, packU_of_lt hlt] at hp
    have hp' := Option.some_inj.mp hp
    rw [← hp']
    simp [List.append_assoc]
  have hp0 : serialize_tx_payload { t with tx_hash := "" } = some p := by
    rw [serialize_tx_payload_hash_irrel]
    exact hp
  rw [hd]
  unfold deserialize_tx_payload
  rw [unpackUst_leBytes 4 _ _ hv]
  dsimp only
  rw [deserialize_int_serialize hce1]
  dsimp only
  rw [desList_serList_count (P := WfTxIn)
        (fun a e r ha hfa => deserialize_serialize_tx_in ha hfa)
        t.tx_in t.tx_in_count tise _ hticnt htiwf htise]
  dsimp only
  rw [deserialize_int_serialize hce2]
  dsimp only
  rw [desList_serList_count (P := WfTxOut)
        (fun a e r ha hfa => deserialize_serialize_tx_out ha hfa)
        t.tx_out t.tx_out_count tose _ htocnt htowf htose]
  dsimp only
  rw [unpackUst_leBytes 4 _ _ hlt]
  dsimp only
  rw [hp0]
  rfl

/-- Counterexample for C5 as stated: the 12-byte tx payload
`01000000 FD0000 00 00000000` (whose `tx_in_count` VarInt `FD 00 00` is not
minimally encoded) decodes successfully, but its `tx_hash` — computed from
the canonical re-serialisation — differs from the double-SHA256 of the
original payload slice. -/
theorem tx_hash_c5_counterexample :
    ((deserialize_tx_payload
        ([1, 0, 0, 0] ++ [0xFD, 0, 0] ++ [0] ++ [0, 0, 0, 0])).toOption.map
      fun r => (r.1.tx_hash, r.2)) =
      some ("d21633ba23f70118185227be58a63527675641ad37967e2aa461559f577aec43",
            []) ∧
    tx_hash_of_slice ([1, 0, 0, 0] ++ [0xFD, 0, 0] ++ [0] ++ [0, 0, 0, 0]) ≠
      "d21633ba23f70118185227be58a63527675641ad37967e2aa461559f577aec43" := by
  decide

/-- Witness for C5 (amended) at the empty transaction. -/
theorem tx_hash_c5_witness :
    deserialize_tx_payload ([1, 0, 0, 0, 0, 0, 0, 0, 0, 0] ++ [7]) =
      .ok ({ version := 1, tx_in_count := 0, tx_in := [], tx_out_count := 0,
             tx_out := [], lock_time := 0,
             tx_hash := tx_hash_of_slice [1, 0, 0, 0, 0, 0, 0, 0, 0, 0] }, [7]) :=
  tx_hash_c5
    { version := 1, tx_in_count := 0, tx_in := [], tx_out_count := 0,
      tx_out := [], lock_time := 0, tx_hash := "" }
    [1, 0, 0, 0, 0, 0, 0, 0, 0, 0] [7]
    ⟨by decide, by decide, rfl, by decide, by simp, rfl, by decide, by simp⟩
    (by decide)

/-! ## C1: outbound frame structure -/

/-- C1: every frame produced by `serialize_msg` is the magic bytes, the
command zero-padded to exactly 12 bytes, the payload length as u32 LE equal
to the byte length of the payload, `sha256(sha256(payload))[:4]`, then the
payload; commands outside the payload dispatch (e.g. `verack`, `getaddr`)
get an empty payload, length field `0` and checksum `5D F6 E0 E2`. -/
theorem serialize_msg_framing_c1 (env : Env) (s : Serializer) (cmd : List Nat)
    (kw : Kwargs) (frame : List Nat) (h12 : cmd.length ≤ 12)
    (h : serialize_msg env s cmd kw = some frame) :
    ∃ payload : List Nat,
      frame = MAGIC_NUMBER ++ (cmd ++ List.replicate (12 - cmd.length) 0) ++
        leBytes 4 payload.length ++ (sha256 (sha256 payload)).take 4 ++ payload ∧
      frame.take 4 = MAGIC_NUMBER ∧
      (frame.drop 4).take 12 = cmd ++ List.replicate (12 - cmd.length) 0 ∧
      (cmd ++ List.replicate (12 - cmd.length) 0).length = 12 ∧
      leNat ((frame.drop 16).take 4) = payload.length ∧
      (frame.drop 20).take 4 = (sha256 (sha256 payload)).take 4 ∧
      frame.drop 24 = payload ∧
      (cmd ∉ [ascii "version", ascii "ping", ascii "pong", ascii "addr",
              ascii "inv", ascii "getdata"] →
        payload = [] ∧ (frame.drop 16).take 4 = [0, 0, 0, 0] ∧
        (frame.drop 20).take 4 = [0x5D, 0xF6, 0xE0, 0xE2]) := by
  unfold serialize_msg at h
  split at h
  next => exact absurd h (by simp)
  next payload hp =>
    split at h
    next => exact absurd h (by simp)
    next lenB hlenB =>
      unfold packU at hlenB
      split at hlenB
      case isFalse => exact absurd hlenB (by simp)
      case isTrue hlt =>
      injection hlenB with hlenB
      subst hlenB
      injection h with h
      subst h
      refine ⟨payload, ?_⟩
      set P := cmd ++ List.replicate (12 - cmd.length) 0 with hPdef
      have hP : P.length = 12 := by
        simp only [hPdef, List.length_append, List.length_replicate]
        omega
      have hcks : ((sha256 (sha256 payload)).take 4).length = 4 := by
        rw [List.length_take, sha256_length]
        omega
      set F := MAGIC_NUMBER ++ P ++ leBytes 4 payload.length ++
        (sha256 (sha256 payload)).take 4 ++ payload with hF
      have hF' : F = (MAGIC_NUMBER ++ P) ++
          (leBytes 4 payload.length ++ ((sha256 (sha256 payload)).take 4 ++ payload)) := by
        simp [hF, List.append_assoc]
      have h16 : (MAGIC_NUMBER ++ P).length = 16 := by
        simp [List.length_append, hP]; rfl
      have hd16 : F.drop 16 =
          leBytes 4 payload.length ++ ((sha256 (sha256 payload)).take 4 ++ payload) := by
        rw [hF']; exact drop_append_len _ _ _ h16
      have hd20 : F.drop 20 = (sha256 (sha256 payload)).take 4 ++ payload := by
        have : F.drop 20 = (F.drop 16).drop 4 := by
          rw [List.drop_drop]
        rw [this, hd16, drop_leBytes_append]
      have hd24 : F.drop 24 = payload := by
        have : F.drop 24 = (F.drop 20).drop 4 := by
          rw [List.drop_drop]
        rw [this, hd20, drop_append_len _ _ _ hcks]
      refine ⟨rfl, ?_, ?_, hP, ?_, ?_, hd24, ?_⟩
      · rw [hF']
        rw [show (MAGIC_NUMBER ++ P) ++ _ =
          MAGIC_NUMBER ++ (P ++ (leBytes 4 payload.length ++
            ((sha256 (sha256 payload)).take 4 ++ payload))) from by simp [List.append_assoc]]
        exact take_append_len _ _ _ rfl
      · have hd4 : F.drop 4 = P ++ (leBytes 4 payload.length ++
            ((sha256 (sha256 payload)).take 4 ++ payload)) := by
          rw [hF']
          rw [show (MAGIC_NUMBER ++ P) ++ _ =
            MAGIC_NUMBER ++ (P ++ (leBytes 4 payload.length ++
              ((sha256 (sha256 payload)).take 4 ++ payload))) from by simp [List.append_assoc]]
          exact drop_append_len _ _ _ rfl
        rw [hd4]
        exact take_append_len _ _ _ hP
      · rw [hd16, take_leBytes_append, leNat_leBytes_of_lt hlt]
      · rw [hd20]
        exact take_append_len _ _ _ hcks
      · intro hout
        have hempty : payload = [] := by
          simp only [List.mem_cons, List.mem_singleton, not_or] at hout
          obtain ⟨h1, h2, h3, h4, h5, h6, -⟩ := hout
          have := payloadFor_default env s cmd kw h1 (not_or.mpr ⟨h2, h3⟩) h4
            (not_or.mpr ⟨h5, h6⟩)
          rw [hp] at this
          exact Option.some_inj.mp this
        subst hempty
        refine ⟨rfl, ?_, ?_⟩
        · rw [hd16, take_leBytes_append]
          rfl
        · rw [hd20, take_append_len _ _ _ hcks]
          decide

/-- Witness for C1 at the `verack` command with empty keyword arguments. -/
theorem serialize_msg_framing_c1_witness :
    ∃ payload : List Nat,
      (serialize_msg env0 ser0 (ascii "verack") kw0).getD [] =
        MAGIC_NUMBER ++ (ascii "verack" ++
          List.replicate (12 - (ascii "verack").length) 0) ++
        leBytes 4 payload.length ++ (sha256 (sha256 payload)).take 4 ++ payload ∧
      ((serialize_msg env0 ser0 (ascii "verack") kw0).getD []).take 4 = MAGIC_NUMBER ∧
      (((serialize_msg env0 ser0 (ascii "verack") kw0).getD []).drop 4).take 12 =
        ascii "verack" ++ List.replicate (12 - (ascii "verack").length) 0 ∧
      (ascii "verack" ++ List.replicate (12 - (ascii "verack").length) 0).length = 12 ∧
      leNat ((((serialize_msg env0 ser0 (ascii "verack") kw0).getD []).drop 16).take 4) =
        payload.length ∧
      (((serialize_msg env0 ser0 (ascii "verack") kw0).getD []).drop 20).take 4 =
        (sha256 (sha256 payload)).take 4 ∧
      ((serialize_msg env0 ser0 (ascii "verack") kw0).getD []).drop 24 = payload ∧
      (ascii "verack" ∉ [ascii "version", ascii "ping", ascii "pong", ascii "addr",
              ascii "inv", ascii "getdata"] →
        payload = [] ∧
        (((serialize_msg env0 ser0 (ascii "verack") kw0).getD []).drop 16).take 4 =
          [0, 0, 0, 0] ∧
        (((serialize_msg env0 ser0 (ascii "verack") kw0).getD []).drop 20).take 4 =
          [0x5D, 0xF6, 0xE0, 0xE2]) :=
  serialize_msg_framing_c1 env0 ser0 (ascii "verack") kw0 _ (by decide) (by decide)

end Bitnodes
